import Mathlib

/-!
Verification of the trellgo export pipeline.

This file gives a shallow embedding of the core of trellgo, a Go program that
exports Trello boards to a local filesystem tree, and proves or refutes the
frozen specification claims about it.  Go strings are modelled as lists of
characters (the exported names are ASCII, so byte length and character length
coincide), the filesystem is modelled as the ordered list of entries created
by a run, remote calls and fault injection are modelled by oracle functions
collected in a `World`, and `os.Exit` is modelled as a distinguished outcome.
-/

set_option maxHeartbeats 1000000
set_option maxRecDepth 100000

namespace Trellgo

/-- Go strings are modelled as lists of characters. -/
abbrev Str := List Char

/-- Convert a Lean string literal to the `Str` model. -/
def str (s : String) : Str := s.data

/-- The characters matched by the regexp in SanitizePathName
(functions.go): angle brackets, colon, double quote, slash, backslash,
pipe, question mark, star. -/
def isIllegalChar (c : Char) : Bool :=
  c == '<' || c == '>' || c == ':' || c == '"' || c == '/' ||
  c == '\\' || c == '|' || c == '?' || c == '*'

/-- The cutset of the strings.Trim call in SanitizePathName: space, dot,
underscore, hyphen. -/
def isTrimChar (c : Char) : Bool :=
  c == ' ' || c == '.' || c == '_' || c == '-'

/-- The re.ReplaceAllString step of SanitizePathName: every illegal
character is replaced by a hyphen. -/
def replaceIllegal (s : Str) : Str :=
  s.map (fun c => if isIllegalChar c then '-' else c)

/-- strings.Trim with the cutset " ._-": drop trim characters from both
ends. -/
def goTrim (s : Str) : Str :=
  ((s.dropWhile isTrimChar).reverse.dropWhile isTrimChar).reverse

/-- The fixed prefix of the fallback name used when sanitization empties
the input (functions.go SanitizePathName). -/
def fallbackName : Str := str "Board-Was-Illegal-Characters-"

/-- The value of the local variable cleaned in SanitizePathName just
before the 240-character truncation.  The timestamp `ts` stands for
time.Now().Format of the layout 20060102-150405. -/
def cleanedName (ts : Str) (name : Str) : Str :=
  let cleaned := goTrim (replaceIllegal name)
  if cleaned = [] then fallbackName ++ ts else cleaned

/-- SanitizePathName (functions.go): replace illegal characters with a
hyphen, trim " ._-" from both ends, substitute a timestamped fallback
when the result is empty, then truncate to 240 characters. -/
def SanitizePathName (ts : Str) (name : Str) : Str :=
  let cleaned := cleanedName ts name
  if 240 < cleaned.length then cleaned.take 240 else cleaned

section SanitizerLemmas

variable {α : Type} (p : α → Bool)

theorem dropWhile_head_not (l : List α) (a : α) (t : List α)
    (h : l.dropWhile p = a :: t) : p a = false := by
  induction l with
  | nil => simp [List.dropWhile] at h
  | cons b l ih =>
    rw [List.dropWhile] at h
    cases hb : p b with
    | true => rw [hb] at h; exact ih h
    | false => rw [hb] at h; cases h; exact hb

theorem dropWhile_eq_self_of_head (l : List α) (a : α) (t : List α)
    (hl : l = a :: t) (ha : p a = false) : l.dropWhile p = l := by
  subst hl; rw [List.dropWhile, ha]

theorem mem_of_mem_dropWhile {x : α} (l : List α)
    (h : x ∈ l.dropWhile p) : x ∈ l := by
  induction l with
  | nil => simp [List.dropWhile] at h
  | cons b l ih =>
    rw [List.dropWhile] at h
    cases hb : p b with
    | true => rw [hb] at h; exact List.mem_cons_of_mem _ (ih h)
    | false => rw [hb] at h; exact h

theorem exists_dropWhile_suffix (l : List α) :
    ∃ u, u ++ l.dropWhile p = l := by
  induction l with
  | nil => exact ⟨[], rfl⟩
  | cons b l ih =>
    rw [List.dropWhile]
    cases hb : p b with
    | true =>
      obtain ⟨u, hu⟩ := ih
      exact ⟨b :: u, by simp [hu]⟩
    | false => exact ⟨[], rfl⟩

theorem mem_of_mem_goTrim {c : Char} (s : Str) (h : c ∈ goTrim s) : c ∈ s := by
  unfold goTrim at h
  rw [List.mem_reverse] at h
  have h1 := mem_of_mem_dropWhile isTrimChar _ h
  rw [List.mem_reverse] at h1
  exact mem_of_mem_dropWhile isTrimChar _ h1

theorem goTrim_head_not (s : Str) (a : Char) (t : Str)
    (h : goTrim s = a :: t) : isTrimChar a = false := by
  unfold goTrim at h
  obtain ⟨u, hu⟩ := exists_dropWhile_suffix isTrimChar (s.dropWhile isTrimChar).reverse
  have hm : s.dropWhile isTrimChar =
      ((s.dropWhile isTrimChar).reverse.dropWhile isTrimChar).reverse ++ u.reverse := by
    have := congrArg List.reverse hu
    simpa [List.reverse_append] using this.symm
  rw [h, List.cons_append] at hm
  exact dropWhile_head_not isTrimChar s a _ hm

theorem goTrim_getLast_not (s : Str) (a : Char)
    (h : (goTrim s).getLast? = some a) : isTrimChar a = false := by
  unfold goTrim at h
  rw [List.getLast?_reverse] at h
  rcases hd : (s.dropWhile isTrimChar).reverse.dropWhile isTrimChar with _ | ⟨b, tb⟩
  · rw [hd] at h; simp at h
  · rw [hd] at h
    have hb := dropWhile_head_not isTrimChar _ b tb hd
    simp only [List.head?, Option.some.injEq] at h
    rw [← h]; exact hb

theorem mem_replaceIllegal_not {c : Char} (s : Str)
    (h : c ∈ replaceIllegal s) : isIllegalChar c = false := by
  unfold replaceIllegal at h
  rw [List.mem_map] at h
  obtain ⟨d, _, hd⟩ := h
  by_cases hil : isIllegalChar d = true
  · rw [hil] at hd; simp at hd; rw [← hd]; decide
  · rw [Bool.not_eq_true] at hil
    rw [hil] at hd; simp at hd; rw [← hd]; exact hil

theorem replaceIllegal_eq_self (s : Str)
    (h : ∀ c ∈ s, isIllegalChar c = false) : replaceIllegal s = s := by
  unfold replaceIllegal
  induction s with
  | nil => rfl
  | cons a t ih =>
    simp only [List.map_cons]
    rw [h a (List.mem_cons_self a t), ih (fun c hc => h c (List.mem_cons_of_mem a hc))]
    simp

theorem goTrim_eq_self (s : Str) (a b : Char)
    (hh : s.head? = some a) (ha : isTrimChar a = false)
    (hl : s.getLast? = some b) (hb : isTrimChar b = false) : goTrim s = s := by
  rcases s with _ | ⟨x, t⟩
  · simp at hh
  · simp only [List.head?] at hh
    cases hh
    unfold goTrim
    rw [dropWhile_eq_self_of_head isTrimChar (a :: t) a t rfl ha]
    rcases hr : (a :: t).reverse with _ | ⟨y, ty⟩
    · simp at hr
    · have hy : y = b := by
        have := List.getLast?_reverse (a :: t).reverse
        rw [List.reverse_reverse] at this
        rw [hr] at this
        simp only [List.head?] at this
        rw [hl] at this
        exact (Option.some.injEq _ _ ▸ this).symm
      rw [dropWhile_eq_self_of_head isTrimChar (y :: ty) y ty rfl (hy ▸ hb), ← hr,
        List.reverse_reverse]

theorem take_head? (n : ℕ) (l : List α) :
    (l.take (n + 1)).head? = l.head? := by
  cases l <;> simp

theorem take_ne_nil (n : ℕ) (l : List α) (h : l ≠ []) :
    l.take (n + 1) ≠ [] := by
  cases l
  · exact absurd rfl h
  · simp

end SanitizerLemmas

theorem getLast?_exists_of_ne_nil {α : Type} (l : List α) (h : l ≠ []) :
    ∃ b, l.getLast? = some b := by
  have hrev : l.getLast? = l.reverse.head? := by
    have := List.getLast?_reverse l.reverse
    rw [List.reverse_reverse] at this
    exact this
  rcases hr : l.reverse with _ | ⟨b, t⟩
  · exact absurd (by simpa using congrArg List.reverse hr) h
  · exact ⟨b, by rw [hrev, hr]; rfl⟩

/-- Core characterization of the value of cleaned in SanitizePathName just
before truncation: under the shape of the Go timestamp (no illegal
characters, final character not in the trim cutset, at most 211
characters), the pre-truncation value is non-empty, free of illegal
characters, does not begin or end with a trim character, and in the
fallback case fits in 240 characters. -/
theorem cleanedName_spec (ts name : Str)
    (hts1 : ∀ c ∈ ts, isIllegalChar c = false)
    (hts2 : ∃ tc, ts.getLast? = some tc ∧ isTrimChar tc = false)
    (hts3 : ts.length ≤ 211) :
    cleanedName ts name ≠ [] ∧
    (∀ c ∈ cleanedName ts name, isIllegalChar c = false) ∧
    (∀ a, (cleanedName ts name).head? = some a → isTrimChar a = false) ∧
    (∀ a, (cleanedName ts name).getLast? = some a → isTrimChar a = false) ∧
    (goTrim (replaceIllegal name) = [] → (cleanedName ts name).length ≤ 240) := by
  obtain ⟨tc, htc, htcf⟩ := hts2
  by_cases hg : goTrim (replaceIllegal name) = []
  · have hc : cleanedName ts name = fallbackName ++ ts := by
      unfold cleanedName
      rw [hg]
      rfl
    have htsne : ts ≠ [] := by
      intro hts0; rw [hts0] at htc; simp at htc
    refine ⟨?_, ?_, ?_, ?_, ?_⟩
    · rw [hc]; intro h0
      rcases List.append_eq_nil.mp h0 with ⟨h1, _⟩
      exact absurd h1 (by decide)
    · rw [hc]; intro c hcmem
      rcases List.mem_append.mp hcmem with h1 | h2
      · have hall : ∀ x ∈ fallbackName, isIllegalChar x = false := by decide
        exact hall c h1
      · exact hts1 c h2
    · rw [hc]; intro a ha
      have : (fallbackName ++ ts).head? = some 'B' := rfl
      rw [this] at ha
      cases ha; decide
    · rw [hc]; intro a ha
      rw [List.getLast?_append_of_ne_nil _ htsne, htc] at ha
      cases ha; exact htcf
    · intro _
      rw [hc, List.length_append]
      have : fallbackName.length = 29 := by decide
      omega
  · have hc : cleanedName ts name = goTrim (replaceIllegal name) := by
      unfold cleanedName
      simp [hg]
    refine ⟨?_, ?_, ?_, ?_, fun h => absurd h hg⟩
    · rw [hc]; exact hg
    · rw [hc]; intro c hcmem
      exact mem_replaceIllegal_not name (mem_of_mem_goTrim (replaceIllegal name) hcmem)
    · rw [hc]; intro a ha
      rcases hgl : goTrim (replaceIllegal name) with _ | ⟨x, t⟩
      · exact absurd hgl hg
      · rw [hgl] at ha
        simp only [List.head?, Option.some.injEq] at ha
        rw [← ha]
        exact goTrim_head_not (replaceIllegal name) x t hgl
    · rw [hc]; intro a ha
      exact goTrim_getLast_not (replaceIllegal name) a ha

/-- C2 (amended).  For every input, SanitizePathName returns a segment with
no filesystem-illegal characters that is non-empty, at most 240 characters
long, and has no leading separator or whitespace; it also has no trailing
separator or whitespace except when the 240-character truncation was
applied, which can expose a trailing space, dot, underscore, or hyphen of
the untruncated interior.  The timestamp hypotheses mirror the shape of
the Go layout 20060102-150405 used for the fallback name. -/
theorem c2_sanitize_output_clean (ts name : Str)
    (hts1 : ∀ c ∈ ts, isIllegalChar c = false)
    (hts2 : ∃ tc, ts.getLast? = some tc ∧ isTrimChar tc = false)
    (hts3 : ts.length ≤ 211) :
    SanitizePathName ts name ≠ [] ∧
    (SanitizePathName ts name).length ≤ 240 ∧
    (∀ c ∈ SanitizePathName ts name, isIllegalChar c = false) ∧
    (∀ a, (SanitizePathName ts name).head? = some a → isTrimChar a = false) ∧
    ((cleanedName ts name).length ≤ 240 →
      ∀ a, (SanitizePathName ts name).getLast? = some a → isTrimChar a = false) := by
  obtain ⟨hne, hill, hhead, hlast, _⟩ := cleanedName_spec ts name hts1 hts2 hts3
  unfold SanitizePathName
  by_cases h240 : 240 < (cleanedName ts name).length
  · simp only [h240, if_true]
    refine ⟨?_, ?_, ?_, ?_, ?_⟩
    · have h240eq : (240 : ℕ) = 239 + 1 := rfl
      rw [h240eq]
      exact take_ne_nil 239 _ hne
    · rw [List.length_take]; omega
    · intro c hc
      exact hill c (List.take_subset 240 _ hc)
    · intro a ha
      have h240eq : (240 : ℕ) = 239 + 1 := rfl
      rw [h240eq, take_head? 239] at ha
      exact hhead a ha
    · intro hle; omega
  · simp only [h240, if_false]
    exact ⟨hne, by omega, hill, hhead, fun _ => hlast⟩

/-- The Go timestamp layout string itself, a representative value of the
formatted current time. -/
def tsEx : Str := str "20060102-150405"

/-- Name whose cleaned form is 241 characters with a space at index 239,
so that truncation leaves a trailing space. -/
def c2name : Str := List.replicate 239 'a' ++ [' ', 'a']

/-- C2 counterexample: the claim as stated is false.  For this 241-character
input (no illegal characters, clean ends) the sanitized output ends in a
space, i.e. trailing whitespace survives because truncation to 240
characters happens after trimming. -/
theorem c2_counterexample :
    (SanitizePathName tsEx c2name).getLast? = some ' ' := by decide

/-- C2 witness: the amended theorem applied at the Go timestamp value and a
concrete name. -/
theorem c2_witness :
    ((∀ c ∈ tsEx, isIllegalChar c = false) ∧
      (∃ tc, tsEx.getLast? = some tc ∧ isTrimChar tc = false) ∧
      tsEx.length ≤ 211) ∧
    (SanitizePathName tsEx (str "My Card: draft") ≠ [] ∧
      (SanitizePathName tsEx (str "My Card: draft")).length ≤ 240 ∧
      (∀ c ∈ SanitizePathName tsEx (str "My Card: draft"), isIllegalChar c = false) ∧
      (∀ a, (SanitizePathName tsEx (str "My Card: draft")).head? = some a → isTrimChar a = false) ∧
      ((cleanedName tsEx (str "My Card: draft")).length ≤ 240 →
        ∀ a, (SanitizePathName tsEx (str "My Card: draft")).getLast? = some a → isTrimChar a = false)) :=
  ⟨⟨by decide, ⟨'5', by decide, by decide⟩, by decide⟩,
    c2_sanitize_output_clean tsEx (str "My Card: draft") (by decide)
      ⟨'5', by decide, by decide⟩ (by decide)⟩

/-- C3 (amended).  Sanitizing an already-sanitized name changes nothing
whenever the first sanitization did not truncate at 240 characters; a
truncated result can end in a trim character which a second pass would
strip (see the counterexample).  Timestamp hypotheses as in C2. -/
theorem c3_sanitize_idempotent (ts name : Str)
    (hts1 : ∀ c ∈ ts, isIllegalChar c = false)
    (hts2 : ∃ tc, ts.getLast? = some tc ∧ isTrimChar tc = false)
    (hts3 : ts.length ≤ 211)
    (hnt : (cleanedName ts name).length ≤ 240) :
    SanitizePathName ts (SanitizePathName ts name) = SanitizePathName ts name := by
  obtain ⟨hne, hill, hhead, hlast, _⟩ := cleanedName_spec ts name hts1 hts2 hts3
  have hfirst : SanitizePathName ts name = cleanedName ts name := by
    unfold SanitizePathName
    have : ¬ 240 < (cleanedName ts name).length := by omega
    simp [this]
  rw [hfirst]
  set c := cleanedName ts name with hcdef
  obtain ⟨b, hb⟩ := getLast?_exists_of_ne_nil c hne
  rcases hc : c with _ | ⟨a, t⟩
  · exact absurd hc hne
  · rw [← hc]
    have hha : c.head? = some a := by rw [hc]; rfl
    have hri : replaceIllegal c = c := replaceIllegal_eq_self c hill
    have hgt : goTrim c = c :=
      goTrim_eq_self c a b hha (hhead a hha) hb (hlast b hb)
    have hclean : cleanedName ts c = c := by
      unfold cleanedName
      rw [hri, hgt]
      simp [hne]
    unfold SanitizePathName
    rw [hclean]
    have : ¬ 240 < c.length := by omega
    simp [this]

/-- Name whose cleaned form is 241 characters with a hyphen at index 239:
the first sanitization truncates to a string ending in a hyphen, and the
second sanitization strips that hyphen. -/
def c3name : Str := List.replicate 239 'a' ++ ['-', 'a']

/-- C3 counterexample: the claim as stated is false; sanitization is not
idempotent on this input because truncation leaves a trailing trim
character that the second pass removes. -/
theorem c3_counterexample :
    SanitizePathName tsEx (SanitizePathName tsEx c3name) ≠ SanitizePathName tsEx c3name := by
  decide

/-- C3 witness: the amended theorem applied at concrete input. -/
theorem c3_witness :
    ((∀ c ∈ tsEx, isIllegalChar c = false) ∧
      (∃ tc, tsEx.getLast? = some tc ∧ isTrimChar tc = false) ∧
      tsEx.length ≤ 211 ∧ (cleanedName tsEx (str "My Card: draft")).length ≤ 240) ∧
    SanitizePathName tsEx (SanitizePathName tsEx (str "My Card: draft")) =
      SanitizePathName tsEx (str "My Card: draft") :=
  ⟨⟨by decide, ⟨'5', by decide, by decide⟩, by decide, by decide⟩,
    c3_sanitize_idempotent tsEx (str "My Card: draft") (by decide)
      ⟨'5', by decide, by decide⟩ (by decide) (by decide)⟩

/-- Decimal rendering of a natural number, modelling strconv.Itoa. -/
def natToStr (n : ℕ) : Str := (Nat.repr n).data

/-- filepath.Join for two segments.  The Go code only joins non-empty,
separator-free segments (they come from the sanitizer or are literals), on
which filepath.Join reduces to inserting one separator. -/
def pjoin (a b : Str) : Str := a ++ '/' :: b

/-- CLI argument record (functions.go ARGS). -/
structure ARGS where
  Archived : Bool
  ListLabelIDs : Bool
  ListTotalCards : Bool
  SeparateArchived : Bool
  SuperQuiet : Bool
  LoggingEnabled : Bool
  StoragePath : Str
  LabelID : Str
  LogFile : Str
deriving DecidableEq

/-- Environment record (functions.go ENV). -/
structure ENV where
  TRELLOAPIKEY : Str
  TRELLOAPITOK : Str
  TRELLOAPIURL : Str
deriving DecidableEq

/-- Runtime configuration (main Config). -/
structure Config where
  ARGS : ARGS
  ENV : ENV
deriving DecidableEq

/-- A trello.List: identifier and display name. -/
structure TrelloList where
  ID : Str
  Name : Str
deriving DecidableEq

/-- A trello.Member: display name and identifier. -/
structure Member where
  FullName : Str
  ID : Str
deriving DecidableEq

/-- A trello.Label: name, color and identifier. -/
structure Label where
  Name : Str
  Color : Str
  ID : Str
deriving DecidableEq

/-- A trello.Action.  Dates are modelled by their final formatted text
(the Go code only ever renders them through time.Format); the member
creator is optional because the remote data may omit it. -/
structure TAction where
  Typ : Str
  Date : Str
  DataText : Str
  MemberCreator : Option Member
deriving DecidableEq

/-- A trello.Attachment. -/
structure Attachment where
  ID : Str
  Name : Str
  URL : Str
  IsUpload : Bool
deriving DecidableEq

/-- A trello.Cover reference on a card: a solid color or an attachment
identifier (empty string when absent, as in the Go struct). -/
structure Cover where
  Color : Str
  IDAttachment : Str
deriving DecidableEq

/-- A trello.CheckItem of a checklist. -/
structure CheckItem where
  Name : Str
  State : Str
deriving DecidableEq

/-- A trello.Checklist. -/
structure Checklist where
  ID : Str
  Name : Str
  CheckItems : List CheckItem
deriving DecidableEq

/-- A trello.Card.  Slice-valued fields that Go distinguishes as nil
versus populated (comprehensive fetch) are Options; Due and Start carry
the formatted timestamp text. -/
structure Card where
  ID : Str
  Name : Str
  Desc : Str
  Closed : Bool
  IDList : Str
  Due : Option Str
  DueComplete : Bool
  Start : Option Str
  Cover : Option Cover
  Attachments : Option (List Attachment)
  Actions : Option (List TAction)
  Members : Option (List Member)
  Labels : Option (List Label)
  IDCheckLists : List Str
deriving DecidableEq

/-- A trello.Board (the fields the export pipeline reads). -/
structure Board where
  ID : Str
  Name : Str
  BackgroundImage : Str
deriving DecidableEq

/-- A filesystem entry created during a run: a regular file with its
content, or a directory. -/
inductive Entry
  | file (path : Str) (content : Str)
  | dir (path : Str)
deriving DecidableEq

/-- The path of a filesystem entry. -/
def entryPath : Entry → Str
  | .file p _ => p
  | .dir p => p

/-- os.Stat existence check against the modelled filesystem. -/
def statEx (fs : List Entry) (p : Str) : Bool :=
  fs.any (fun e => entryPath e == p)

/-- does the filesystem contain a regular file at this path. -/
def containsFile (fs : List Entry) (p : Str) : Bool :=
  fs.any (fun e => match e with
    | .file q _ => q == p
    | .dir _ => false)

/-- Mutable program state threaded through the embedding: the filesystem
entries created so far, the global errorWarnOnCompletion flag, the
sequence of logger invocations (message and state tag; console echo and
the log-file gate are presentation-only), and the global boardTracker. -/
structure St where
  fs : List Entry
  flag : Bool
  logs : List (Str × Str)
  tracker : List Str
deriving DecidableEq

/-- The logger function (logger.go).  Console printing and the log-file
gate only affect presentation, so the model records every invocation as
(message, state); the console/honorLoud arguments are kept for
traceability with call sites. -/
def loggerM (msg state : Str) (console honorLoud : Bool) (config : Config) (st : St) : St :=
  let _ := console
  let _ := honorLoud
  let _ := config
  { st with logs := st.logs ++ [(msg, state)] }

/-- Oracles for the remote service, the clock, and fault injection, fixed
for one modelled run.  A none result models a failed remote call. -/
structure World where
  now : Str
  writeFails : Str → Bool
  mkdirFails : Str → Bool
  downloadFails : Str → Bool
  urlBase : Str → Str
  getList : Str → Option TrelloList
  isLinkCardQ : Str → Option Bool
  getComprehensive : Str → Option Card
  getChecklist : Str → Option Checklist
  getAttachments : Str → Option (List Attachment)
  getActionsComments : Str → Option (List TAction)
  getActionsAll : Str → Option (List TAction)
  getMembers : Str → Option (List Member)
  getCardLabels : Str → Option (List Label)
  getBoard : Str → Option Board
  getBoardLists : Str → Option (List TrelloList)
  getBoardLabels : Str → Option (List Label)
  getBoardMembers : Str → Option (List Member)
  getCardsAll : Str → Option (List Card)
  getCardsOpen : Str → Option (List Card)
  searchCards : Str → Option (List Card)

/-- os.WriteFile against the modelled filesystem: on success the file
entry is appended, on injected failure nothing changes and false is
returned. -/
def wfile (w : World) (st : St) (p : Str) (content : Str) : St × Bool :=
  if w.writeFails p then (st, false)
  else ({ st with fs := st.fs ++ [Entry.file p content] }, true)

/-- dirCreate (functions.go): stat, then MkdirAll.  The returned Bool is
false exactly when the Go function reaches os.Exit(1) because the
directory could not be created. -/
def dirCreate (w : World) (config : Config) (st : St) (p : Str) : St × Bool :=
  if statEx st.fs p then
    (loggerM (str "Requested directory already exists: " ++ p) (str "info") true true config st, true)
  else
    let st := loggerM (str "Creating requested directory:" ++ p) (str "info") true true config st
    if w.mkdirFails p then
      (loggerM (str "Error: Unable to create requested directory " ++ p) (str "err") true false config st, false)
    else ({ st with fs := st.fs ++ [Entry.dir p] }, true)

/-- ErrorSeverity (logger.go). -/
inductive ErrorSeverity
  | warning
  | error
  | critical
deriving DecidableEq

/-- ProcessingError (logger.go): operation, context, severity, and the
text of the wrapped error. -/
structure ProcessingError where
  Operation : Str
  Context : Str
  Severity : ErrorSeverity
  Emsg : Str
deriving DecidableEq

/-- A Go error value as seen by the handler: either a classified
ProcessingError or any other error carrying only its message. -/
inductive GoErr
  | proc (pe : ProcessingError)
  | plain (msg : Str)
deriving DecidableEq

/-- ProcessingError.Error() (logger.go). -/
def pErrText (pe : ProcessingError) : Str :=
  pe.Operation ++ str " failed for " ++ pe.Context ++ str ": " ++ pe.Emsg

/-- handleProcessingError (logger.go): nil passes through; errors that are
not ProcessingError are wrapped as warnings; warnings are logged and
swallowed; error severity is logged and returned; critical severity is
logged, sets errorWarnOnCompletion, and is returned. -/
def handleProcessingError (e : Option GoErr) (config : Config) (st : St) : St × Option GoErr :=
  match e with
  | none => (st, none)
  | some ge =>
    let procErr : ProcessingError :=
      match ge with
      | .proc pe => pe
      | .plain m => ⟨str "unknown operation", str "unknown context", .warning, m⟩
    match procErr.Severity with
    | .warning =>
      (loggerM (str "Warning: " ++ pErrText procErr) (str "warn") true true config st, none)
    | .error =>
      (loggerM (str "Error: " ++ pErrText procErr) (str "err") true false config st,
        some (.proc procErr))
    | .critical =>
      let st := loggerM (str "CRITICAL: " ++ pErrText procErr) (str "err") true false config st
      ({ st with flag := true }, some (.proc procErr))

/-- Outcome of a Go function in the pipeline: normal return with nil
error, return with a non-nil error, or a reached os.Exit. -/
inductive StepRes
  | ok (st : St)
  | fail (st : St) (e : GoErr)
  | exit (st : St)
deriving DecidableEq

/-- The state carried by any outcome. -/
def stOf : StepRes → St
  | .ok st => st
  | .fail st _ => st
  | .exit st => st

/-- The error carried by a fail outcome (dummy otherwise). -/
def errOf : StepRes → GoErr
  | .fail _ e => e
  | _ => .plain []

/-- Sequencing of the Go pattern: if err := f(); err != nil then return err. -/
def seqR (r : StepRes) (k : St → StepRes) : StepRes :=
  match r with
  | .ok st => k st
  | .fail st e => .fail st e
  | .exit st => .exit st

/-- The Go pattern return handleProcessingError(newProcessingError(...)):
warnings come back as a normal nil return, the rest as an error return. -/
def retHPE (pe : ProcessingError) (config : Config) (st : St) : StepRes :=
  match handleProcessingError (some (.proc pe)) config st with
  | (st, none) => .ok st
  | (st, some e) => .fail st e

/-- Newline character used by the renderers. -/
def nl : Char := '\n'

/-!
Modelling notes for the per-card renderers (trello.go / part_008).

Slices in Go may contain nil pointers which the renderers skip or
normalize; the model uses plain lists, so only the observable
normalizations (empty display names replaced by sentinels) are modelled.
Error values attached to log messages (err.Error() suffixes) are omitted
from logged text since no claim depends on them; every logger invocation
itself is recorded faithfully.  The per-job byte buffer from the pool is
modelled as a local accumulator: claims do not concern the pool, and the
buffer is Reset before every use in the source.
-/

/-- processCardDescription (trello.go): write the raw description and
classify a failed write as Critical via handleProcessingError. -/
def processCardDescription (w : World) (card : Card) (cardPath : Str) (config : Config)
    (st : St) : StepRes :=
  let st := loggerM (str "Dumping card: " ++ card.Name) (str "info") true true config st
  let r := wfile w st (pjoin cardPath (str "CardDescription.md")) card.Desc
  if r.2 then .ok r.1
  else retHPE ⟨str "write card description", str "card " ++ card.Name, .critical,
    str "write failed"⟩ config r.1

/-- downloadFileAuthHeader (functions.go): authenticated download; the
request runs before os.Create, so a failed download leaves no file. -/
def downloadFileAuthHeader (w : World) (config : Config) (st : St)
    (fileURL localFilePath : Str) : St × Bool :=
  let st := loggerM (str "Downloading file from URL: " ++ fileURL ++
    str " to local path: " ++ localFilePath) (str "info") true true config st
  if w.downloadFails fileURL then (st, false)
  else if w.writeFails localFilePath then (st, false)
  else ({ st with fs := st.fs ++ [Entry.file localFilePath fileURL] }, true)

/-- One iteration of the attachment loop in processCardAttachments:
uploads are downloaded with the authenticated URL (cover attachments get
a distinguishing suffix and an extra log line; a failed download is
logged and skipped), URL attachments are appended to the buffer. -/
def processOneAttachment (w : World) (card : Card) (cardPath : Str) (config : Config)
    (acc : St × Str) (a : Attachment) : St × Str :=
  let st := acc.1
  let buff := acc.2
  if a.IsUpload then
    let base := pjoin cardPath (str "attachments")
    let isCover : Bool := match card.Cover with
      | some cv => cv.IDAttachment == a.ID
      | none => false
    let filePath := if isCover then pjoin base (a.Name ++ str " (Card Cover)")
      else pjoin base a.Name
    let st := if isCover then
        loggerM (str "This is the cover attachment for card " ++ card.Name ++
          str " downloading to " ++ filePath) (str "info") true true config st
      else st
    let authURL := str "https://api.trello.com/1/cards/" ++ card.ID ++
      str "/attachments/" ++ a.ID ++ str "/download/" ++ a.Name
    let r := downloadFileAuthHeader w config st authURL filePath
    if r.2 then (r.1, buff)
    else (loggerM (str "Error downloading attachment from " ++ authURL ++ str " to " ++
      filePath) (str "err") true false config r.1, buff)
  else (st, buff ++ a.URL ++ [nl])

/-- processCardAttachments (trello.go): use comprehensive attachments or
fall back to a fetch whose failure is a Warning; with attachments, create
the subdirectory, download uploads, and write URL-Attachments.md (a failed
write is Critical); with no attachments, only create the empty
subdirectory. -/
def processCardAttachments (w : World) (card : Card) (cardPath : Str) (config : Config)
    (st : St) : StepRes :=
  let attachmentsO : Option (List Attachment) :=
    match card.Attachments with
    | some l => some l
    | none => w.getAttachments card.ID
  match attachmentsO with
  | none => retHPE ⟨str "get attachments", str "card " ++ card.Name, .warning,
      str "fetch failed"⟩ config st
  | some attachments =>
    if attachments.length > 0 then
      let r := dirCreate w config st (pjoin cardPath (str "attachments"))
      if !r.2 then .exit r.1 else
      let st := loggerM (card.Name ++ str " has " ++ natToStr attachments.length ++
        str " attachments") (str "info") true true config r.1
      let rb := attachments.foldl (processOneAttachment w card cardPath config) (st, [])
      let rw := wfile w rb.1 (pjoin (pjoin cardPath (str "attachments"))
        (str "URL-Attachments.md")) rb.2
      if rw.2 then .ok rw.1
      else retHPE ⟨str "write URL attachments", str "card " ++ card.Name, .critical,
        str "write failed"⟩ config rw.1
    else
      let st := loggerM (str "No attachments found for card " ++ card.Name) (str "warn")
        true true config st
      let r := dirCreate w config st (pjoin cardPath (str "attachments"))
      if r.2 then .ok r.1 else .exit r.1

/-- The Markdown body of one checklist: a checkbox line per item. -/
def checklistContent (cl : Checklist) : Str :=
  cl.CheckItems.foldl (fun acc item =>
    acc ++ (if item.State == str "complete" then str "- [x] " else str "- [ ] ") ++
      item.Name ++ [nl]) []

/-- The loop body of processCardChecklists over the checklist IDs,
threading the per-card collision counter: empty IDs are skipped, fetch
failures are logged and skipped, a name collision (os.Stat hit on the
plain name) bumps the counter and switches to the numbered filename, and
a failed write is logged, sets the flag and returns the error. -/
def checklistLoop (w : World) (cardPath : Str) (config : Config) :
    List Str → St → ℕ → StepRes
  | [], st, _ => .ok st
  | cid :: rest, st, n =>
    if cid = [] then checklistLoop w cardPath config rest st n
    else match w.getChecklist cid with
    | none =>
      checklistLoop w cardPath config rest
        (loggerM (str "Error: Unable to get checklist data for checklist ID " ++ cid)
          (str "err") true false config st) n
    | some checklist =>
      let checklistName := SanitizePathName w.now checklist.Name
      let st := loggerM (str "Processing checklist: " ++ checklistName) (str "info")
        true true config st
      let content := checklistContent checklist
      let fullpath0 := pjoin (pjoin cardPath (str "checklists")) (checklistName ++ str ".md")
      let pr : Str × ℕ :=
        if statEx st.fs fullpath0 then
          (pjoin (pjoin cardPath (str "checklists"))
            (checklistName ++ str " " ++ natToStr (n + 1) ++ str ".md"), n + 1)
        else (fullpath0, n)
      let st := loggerM (str "Creating checklist markdown file: " ++ pr.1) (str "info")
        true true config st
      let rw := wfile w st pr.1 content
      if rw.2 then checklistLoop w cardPath config rest rw.1 pr.2
      else
        let st := loggerM (str "CRITICAL - Unable to write buffer to file for " ++ pr.1)
          (str "err") true true config rw.1
        .fail { st with flag := true } (.plain (str "write failed"))

/-- processCardChecklists (trello.go): reset the per-card counter, create
the checklists directory, then run the loop over the checklist IDs. -/
def processCardChecklists (w : World) (card : Card) (cardPath : Str) (config : Config)
    (st : St) : StepRes :=
  let st := loggerM (str "Found " ++ natToStr card.IDCheckLists.length ++
    str " checklists for card " ++ card.Name) (str "info") true true config st
  let r := dirCreate w config st (pjoin cardPath (str "checklists"))
  if !r.2 then .exit r.1 else
  checklistLoop w cardPath config card.IDCheckLists r.1 0

/-- The Unknown Member normalization used by comments and history. -/
def creatorName (m : Option Member) : Str :=
  match m with
  | none => str "Unknown Member"
  | some mm => if mm.FullName = [] then str "Unknown Member" else mm.FullName

/-- processCardComments (trello.go): filter commentCard actions from
comprehensive data (or fall back to a fetch whose failure is logged and
swallowed), then write one formatted line per comment; with no comments
write the empty file, discarding any write error. -/
def processCardComments (w : World) (card : Card) (cardPath : Str) (config : Config)
    (st : St) : StepRes :=
  let st := loggerM (str "Grabbing comments for card: " ++ card.Name) (str "info")
    true true config st
  let commentsO : Option (List TAction) :=
    match card.Actions with
    | some acts => some (acts.filter (fun a => a.Typ == str "commentCard"))
    | none => w.getActionsComments card.ID
  match commentsO with
  | none =>
    .ok (loggerM (str "Error: Unable to get comments for card ID " ++ card.ID)
      (str "err") true false config st)
  | some comments =>
    let commentFileName := pjoin cardPath (str "CardComments.md")
    if comments.length > 0 then
      let st := loggerM (str "Found " ++ natToStr comments.length ++
        str " comments for card " ++ card.Name) (str "info") true true config st
      let content := comments.foldl (fun acc c =>
        acc ++ str "**" ++ creatorName c.MemberCreator ++ str "** (" ++ c.Date ++
          str "): " ++ c.DataText ++ [nl]) []
      let rw := wfile w st commentFileName content
      if rw.2 then
        .ok (loggerM (str "Created comments markdown file: " ++ commentFileName)
          (str "info") true true config rw.1)
      else
        let st := loggerM (str "CRITICAL - Unable to write buffer to file for " ++
          commentFileName) (str "err") true true config rw.1
        .fail { st with flag := true } (.plain (str "write failed"))
    else
      let st := loggerM (str "No comments found on card " ++ card.Name) (str "warn")
        true true config st
      let rw := wfile w st commentFileName []
      .ok rw.1

/-- processCardUsers (trello.go): one line per member with the Unknown
sentinels; with no members write the empty file, discarding any write
error. -/
def processCardUsers (w : World) (card : Card) (cardPath : Str) (config : Config)
    (st : St) : StepRes :=
  let st := loggerM (str "Grabbing users for card: " ++ card.Name) (str "info")
    true true config st
  let membersO : Option (List Member) :=
    match card.Members with
    | some l => some l
    | none => w.getMembers card.ID
  match membersO with
  | none =>
    .ok (loggerM (str "Error: Unable to get members for card ID " ++ card.ID)
      (str "err") true false config st)
  | some members =>
    let userFileName := pjoin cardPath (str "CardUsers.md")
    if members.length > 0 then
      let st := loggerM (str "Found " ++ natToStr members.length ++
        str " members for card " ++ card.Name) (str "info") true true config st
      let content := members.foldl (fun acc m =>
        let mm := if m.FullName = [] then Member.mk (str "Unknown Member") (str "Unknown ID")
          else m
        acc ++ str "**" ++ mm.FullName ++ str "** (" ++ mm.ID ++ str ")" ++ [nl]) []
      let rw := wfile w st userFileName content
      if rw.2 then
        .ok (loggerM (str "Created users markdown file: " ++ userFileName)
          (str "info") true true config rw.1)
      else
        let st := loggerM (str "CRITICAL - Unable to write buffer to file for " ++
          userFileName) (str "err") true true config rw.1
        .fail { st with flag := true } (.plain (str "write failed"))
    else
      let st := loggerM (str "No users found on card " ++ card.Name) (str "warn")
        true true config st
      let rw := wfile w st userFileName []
      .ok rw.1

/-- processCardLabels (trello.go): one line per label; with no labels
write the empty file, discarding any write error. -/
def processCardLabels (w : World) (card : Card) (cardPath : Str) (config : Config)
    (st : St) : StepRes :=
  let st := loggerM (str "Grabbing labels for card: " ++ card.Name) (str "info")
    true true config st
  let labelsO : Option (List Label) :=
    match card.Labels with
    | some l => some l
    | none => w.getCardLabels card.ID
  match labelsO with
  | none =>
    .ok (loggerM (str "Error: Unable to get labels for card ID " ++ card.ID)
      (str "err") true false config st)
  | some labels =>
    let labelFileName := pjoin cardPath (str "CardLabels.md")
    if labels.length > 0 then
      let st := loggerM (str "Found " ++ natToStr labels.length ++
        str " labels for card " ++ card.Name) (str "info") true true config st
      let content := labels.foldl (fun acc l =>
        acc ++ str "**" ++ l.Name ++ str "** - " ++ l.Color ++ str " (" ++ l.ID ++
          str ")" ++ [nl]) []
      let rw := wfile w st labelFileName content
      if rw.2 then
        .ok (loggerM (str "Created labels markdown file: " ++ labelFileName)
          (str "info") true true config rw.1)
      else
        let st := loggerM (str "CRITICAL - Unable to write buffer to file for " ++
          labelFileName) (str "err") true true config rw.1
        .fail { st with flag := true } (.plain (str "write failed"))
    else
      let st := loggerM (str "No labels found on card " ++ card.Name) (str "warn")
        true true config st
      let rw := wfile w st labelFileName []
      .ok rw.1

/-- processCardHistory (trello.go): one line per action; with no history
write the empty file, discarding any write error. -/
def processCardHistory (w : World) (card : Card) (cardPath : Str) (config : Config)
    (st : St) : StepRes :=
  let st := loggerM (str "Grabbing history for card: " ++ card.Name) (str "info")
    true true config st
  let historyO : Option (List TAction) :=
    match card.Actions with
    | some l => some l
    | none => w.getActionsAll card.ID
  match historyO with
  | none =>
    .ok (loggerM (str "Error: Unable to get history for card ID " ++ card.ID)
      (str "err") true true config st)
  | some history =>
    let historyFileName := pjoin cardPath (str "CardHistory.md")
    if history.length > 0 then
      let st := loggerM (str "Found " ++ natToStr history.length ++
        str " history actions for card " ++ card.Name) (str "info") true true config st
      let content := history.foldl (fun acc a =>
        acc ++ str "**" ++ a.Typ ++ str "** (" ++ a.Date ++ str "): " ++
          creatorName a.MemberCreator ++ str " - " ++ a.DataText ++ [nl]) []
      let rw := wfile w st historyFileName content
      if rw.2 then
        .ok (loggerM (str "Created history markdown file: " ++ historyFileName)
          (str "info") true true config rw.1)
      else
        let st := loggerM (str "CRITICAL - Unable to write buffer to file for " ++
          historyFileName) (str "err") true true config rw.1
        .fail { st with flag := true } (.plain (str "write failed"))
    else
      let st := loggerM (str "No history found for card " ++ card.Name) (str "warn")
        true true config st
      let rw := wfile w st historyFileName []
      .ok rw.1

/-- The start-date half of processCardDates. -/
def processStartDatePart (w : World) (card : Card) (cardPath : Str) (config : Config)
    (st : St) : StepRes :=
  match card.Start with
  | some d =>
    let startFileName := pjoin cardPath (str "CardStartDate.md")
    let rw := wfile w st startFileName d
    if rw.2 then
      .ok (loggerM (str "Created start date markdown file: " ++ startFileName)
        (str "info") true true config rw.1)
    else
      let st := loggerM (str "CRITICAL - Unable to write buffer to file for " ++
        startFileName) (str "err") true true config rw.1
      .fail { st with flag := true } (.plain (str "write failed"))
  | none =>
    let st := loggerM (str "No start date found for card " ++ card.Name) (str "warn")
      true true config st
    let rw := wfile w st (pjoin cardPath (str "CardStartDate.md")) []
    .ok rw.1

/-- processCardDates (trello.go): the due date goes to a Completed-suffixed
file when DueComplete is set; an absent due or start date yields an empty
file whose write error is discarded. -/
def processCardDates (w : World) (card : Card) (cardPath : Str) (config : Config)
    (st : St) : StepRes :=
  match card.Due with
  | some d =>
    let dueFileName := if card.DueComplete then pjoin cardPath (str "CardDueDate (Completed).md")
      else pjoin cardPath (str "CardDueDate.md")
    let rw := wfile w st dueFileName d
    if rw.2 then
      processStartDatePart w card cardPath config
        (loggerM (str "Created due date markdown file: " ++ dueFileName)
          (str "info") true true config rw.1)
    else
      let st := loggerM (str "CRITICAL - Unable to write buffer to file for " ++
        dueFileName) (str "err") true true config rw.1
      .fail { st with flag := true } (.plain (str "write failed"))
  | none =>
    let st := loggerM (str "No due date found for card " ++ card.Name) (str "warn")
      true true config st
    let rw := wfile w st (pjoin cardPath (str "CardDueDate.md")) []
    processStartDatePart w card cardPath config rw.1

/-- processCardCover (trello.go): write the color name for a solid cover,
nothing for an image cover (the attachment step already saved it). -/
def processCardCover (w : World) (card : Card) (cardPath : Str) (config : Config)
    (st : St) : StepRes :=
  match card.Cover with
  | none => .ok (loggerM (str "No cover set on card " ++ card.Name) (str "info")
      true true config st)
  | some cv =>
    if cv.Color ≠ [] then
      let colorFile := pjoin cardPath (str "CardCoverColor.md")
      let rw := wfile w st colorFile cv.Color
      if rw.2 then .ok rw.1
      else .fail (loggerM (str "Error writing cover color for " ++ card.Name)
        (str "err") true false config rw.1) (.plain (str "write failed"))
    else .ok (loggerM (str "Cover is an image, already downloaded in attachments for card " ++
      card.Name) (str "info") true true config st)

/-- The card directory computation at the top of processRegularCard
(trello.go): sanitize the card name; a closed card is suffixed with
(ARCHIVED) in place, or rooted under ARCHIVED/ when the split flag is
set. -/
def cardDirPath (config : Config) (boardPath cleanListPath : Str) (card : Card)
    (now : Str) : Str :=
  let cleanCardPath := SanitizePathName now card.Name
  if card.Closed then
    if !config.ARGS.SeparateArchived then
      pjoin (pjoin (pjoin config.ARGS.StoragePath boardPath) cleanListPath)
        (cleanCardPath ++ str " (ARCHIVED)")
    else
      pjoin (pjoin (pjoin (pjoin config.ARGS.StoragePath boardPath) (str "ARCHIVED"))
        cleanListPath) cleanCardPath
  else
    pjoin (pjoin (pjoin config.ARGS.StoragePath boardPath) cleanListPath) cleanCardPath

/-- The sequence of sub-resource steps of processRegularCard, in source
order. -/
def regularCardSteps (w : World) (card : Card) (config : Config) (cardPath : Str) :
    List (St → StepRes) :=
  [processCardDescription w card cardPath config,
   processCardAttachments w card cardPath config,
   processCardChecklists w card cardPath config,
   processCardComments w card cardPath config,
   processCardUsers w card cardPath config,
   processCardLabels w card cardPath config,
   processCardHistory w card cardPath config,
   processCardDates w card cardPath config,
   processCardCover w card cardPath config]

/-- Run a list of steps with the early-return-on-error sequencing of Go. -/
def runChain : List (St → StepRes) → St → StepRes
  | [], st => .ok st
  | f :: fs, st => seqR (f st) (runChain fs)

/-- processRegularCard (trello.go): compute the card directory, create it,
then run every sub-resource step, returning at the first error. -/
def processRegularCard (w : World) (card : Card) (config : Config)
    (boardPath cleanListPath : Str) (st : St) : StepRes :=
  let cardPath := cardDirPath config boardPath cleanListPath card w.now
  let r := dirCreate w config st cardPath
  if r.2 then runChain (regularCardSteps w card config cardPath) r.1
  else .exit r.1

/-- strings.ReplaceAll with an empty replacement: remove every
non-overlapping occurrence of pat, scanning left to right. -/
def removeOcc (pat : Str) : Str → Str
  | [] => []
  | c :: rest =>
    if h : pat.length ≠ 0 ∧ pat.isPrefixOf (c :: rest) then
      removeOcc pat ((c :: rest).drop pat.length)
    else c :: removeOcc pat rest
termination_by s => s.length
decreasing_by
  · simp only [List.length_drop, List.length_cons]
    omega
  · simp [Nat.lt_succ_self]

/-- processLinkCard (trello.go): link cards become a single Markdown file
holding the URL, inside a Link Cards Only directory; the filename strips
the https--- and http--- artifacts of sanitization. -/
def processLinkCard (w : World) (card : Card) (config : Config)
    (boardPath cleanListPath : Str) (st : St) : StepRes :=
  let st := loggerM (str "This card is a link file only, processing as .MD instead of directory")
    (str "info") true true config st
  let thisCardLinkPath := pjoin (pjoin (pjoin config.ARGS.StoragePath boardPath) cleanListPath)
    (str "Link Cards Only")
  let r := dirCreate w config st thisCardLinkPath
  if !r.2 then .exit r.1 else
  let st := loggerM (str "Created Custom Directory for Link Cards: " ++ thisCardLinkPath)
    (str "info") true true config r.1
  let cleanName0 := SanitizePathName w.now card.Name
  let cleanName1 := removeOcc (str "https---") cleanName0
  let cleanName2 := removeOcc (str "http---") cleanName1
  let cleanName := str "CARD - " ++ cleanName2 ++ str ".md"
  let st := loggerM (str "New Clean Custom Card File Name: " ++ cleanName) (str "info")
    true true config st
  let thisCardPath := pjoin thisCardLinkPath cleanName
  let rw := wfile w st thisCardPath card.Name
  if rw.2 then .ok rw.1
  else
    let st := loggerM (str "CRITICAL - Unable to write buffer to file for " ++ thisCardPath)
      (str "err") true true config rw.1
    .fail { st with flag := true } (.plain (str "write failed"))

/-- processSingleCard (trello.go): resolve the list through the cache
(falling back to a fetch whose failure is Critical), create the list
directory, branch on the link-card probe (whose error is discarded), and
otherwise process the regular card with comprehensive data, falling back
to the original card object when the comprehensive fetch fails. -/
def processSingleCard (w : World) (card : Card) (config : Config) (boardPath : Str)
    (cache : Str → Option TrelloList) (st : St) : StepRes :=
  let listO : Option TrelloList :=
    match cache card.IDList with
    | some l => some l
    | none => w.getList card.IDList
  match listO with
  | none => retHPE ⟨str "get list data", str "list ID " ++ card.IDList, .critical,
      str "fetch failed"⟩ config st
  | some list =>
    let cleanListPath := SanitizePathName w.now list.Name
    let r := dirCreate w config st (pjoin (pjoin config.ARGS.StoragePath boardPath) cleanListPath)
    if !r.2 then .exit r.1 else
    let st := r.1
    let isCardLink : Bool := match w.isLinkCardQ card.ID with
      | some b => b
      | none => false
    if isCardLink then processLinkCard w card config boardPath cleanListPath st
    else
      match w.getComprehensive card.ID with
      | some comprehensiveCard =>
        processRegularCard w comprehensiveCard config boardPath cleanListPath st
      | none =>
        let st := loggerM (str "Warning: Failed to get comprehensive card data, falling back to individual calls: ")
          (str "warn") true true config st
        processRegularCard w card config boardPath cleanListPath st

/-- Outcome of a board-level routine: normal completion or a reached
os.Exit. -/
inductive RunRes
  | done (st : St)
  | exit (st : St)
deriving DecidableEq

/-- createListCache (trello.go): one fetch of all lists for the board;
failure is reported to the caller. -/
def createListCache (w : World) (board : Board) (config : Config) (st : St) :
    St × Option (List TrelloList) :=
  let st := loggerM (str "Caching board lists for performance") (str "info") true true config st
  match w.getBoardLists board.ID with
  | none => (st, none)
  | some lists =>
    (loggerM (str "Cached lists for board " ++ board.Name) (str "info") true true config st,
      some lists)

/-- The text of a Go error value (err.Error()). -/
def goErrText : GoErr → Str
  | .proc pe => pErrText pe
  | .plain m => m

/-- The result-draining loop of processCardsConcurrently, sequentialized:
one job per card in input order, each job contributing exactly one result;
errors are counted and logged, and a positive count sets the flag.  The
counting behavior of the concurrent pool itself is verified separately on
a small-step transition system. -/
def processCardsSeq (w : World) (config : Config) (boardPath : Str)
    (cache : Str → Option TrelloList) : List Card → St → ℕ → RunRes
  | [], st, errorCount =>
    if errorCount > 0 then
      let st := loggerM (str "Completed with errors") (str "warn") true false config st
      .done { st with flag := true }
    else .done st
  | card :: rest, st, n =>
    match processSingleCard w card config boardPath cache st with
    | .ok st => processCardsSeq w config boardPath cache rest st n
    | .fail st e =>
      processCardsSeq w config boardPath cache rest
        (loggerM (str "Card processing error: " ++ goErrText e) (str "err") true false config st)
        (n + 1)
    | .exit st => .exit st

/-- processCardsConcurrently (trello.go), sequentialized: build the list
cache (an empty cache on failure, falling back to per-card fetches), then
run every card job and aggregate errors. -/
def processCardsConcurrentlyM (w : World) (cards : List Card) (board : Board)
    (boardPath : Str) (config : Config) (st : St) : RunRes :=
  let rc := createListCache w board config st
  let stCache : St × (Str → Option TrelloList) :=
    match rc.2 with
    | none =>
      (loggerM (str "Error caching board lists: ") (str "err") true false config rc.1,
        fun _ => none)
    | some lists => (rc.1, fun id => lists.find? (fun l => l.ID == id))
  if cards.length = 0 then .done stCache.1
  else processCardsSeq w config boardPath stCache.2 cards stCache.1 0

/-- downLoadFile (functions.go): unauthenticated download used for the
board background; os.Create runs before the HTTP request, so a failed
download still leaves an empty file behind. -/
def downLoadFile (w : World) (config : Config) (st : St) (fileURL localFilePath : Str) :
    St × Bool :=
  let fileName := w.urlBase fileURL
  let filePath := if fileName = [] then localFilePath ++ str "UnknownFile"
    else localFilePath ++ fileName
  let st := loggerM (str "Downloading file named " ++ fileName ++ str " from URL: " ++
    fileURL ++ str " to local path: " ++ filePath) (str "info") true true config st
  if w.writeFails filePath then (st, false)
  else if w.downloadFails fileURL then
    ({ st with fs := st.fs ++ [Entry.file filePath []] }, false)
  else
    (loggerM (str "Downloaded: " ++ filePath) (str "info") true true config
      { st with fs := st.fs ++ [Entry.file filePath fileURL] }, true)

/-- Markdown body of the BoardLabels.md table: one row per label with the
No Name / No Color substitutions of prettyPrintLabels.  The exact
go-pretty table decoration is abstracted to one row per line; no claim
depends on the rendered text. -/
def labelsMarkdown (labels : List Label) : Str :=
  labels.foldl (fun acc l =>
    acc ++ (if l.Name = [] then str "No Name" else l.Name) ++ str " | " ++
      (if l.Color = [] then str "No Color" else l.Color) ++ str " | " ++ l.ID ++ [nl]) []

/-- Markdown body of BoardMembers.md: one line per member. -/
def membersMarkdown (members : List Member) : Str :=
  members.foldl (fun acc m =>
    acc ++ str "**" ++ m.FullName ++ str "** (" ++ m.ID ++ str ")" ++ [nl]) []

/-- The card-fetch phase of dumpABoard: a label filter searches open cards
by label name; otherwise the archived flag selects the all or open
filter.  Returns the fetched cards or none for a failed remote call. -/
def fetchBoardCards (w : World) (config : Config) (board : Board) (st : St) :
    St × Option (List Card) :=
  if config.ARGS.LabelID ≠ [] then
    let st := loggerM (str "Searching for only cards with label ID: " ++ config.ARGS.LabelID)
      (str "info") true false config st
    let query := str "board:" ++ board.ID ++ str " label:\"" ++ config.ARGS.LabelID ++
      str "\" is:open"
    let st := loggerM (str "Querying Trello API with: " ++ query) (str "info") true true config st
    (st, w.searchCards query)
  else
    if config.ARGS.Archived then (st, w.getCardsAll board.ID)
    else (st, w.getCardsOpen board.ID)

/-- dumpABoard (trello.go): create the storage root and the board
directory (reaching os.Exit when either creation fails), record the board
in the tracker, save the background image, labels and members (a failed
metadata write sets the flag and ends the board), fetch the cards (a
failed fetch is Critical and ends the board, an empty result is Critical,
sets the flag and ends the board), then process all cards. -/
def dumpABoard (w : World) (config : Config) (board : Board) (st : St) : RunRes :=
  let r1 := dirCreate w config st config.ARGS.StoragePath
  if !r1.2 then .exit r1.1 else
  let boardPath := SanitizePathName w.now board.Name
  let r2 := dirCreate w config r1.1 (config.ARGS.StoragePath ++ '/' :: boardPath)
  if !r2.2 then .exit r2.1 else
  let st := { r2.1 with tracker := r2.1.tracker ++
    [board.Name ++ str " (" ++ board.ID ++ str ")"] }
  let st :=
    if board.BackgroundImage ≠ [] then
      let rd := downLoadFile w config st board.BackgroundImage
        (pjoin (pjoin config.ARGS.StoragePath boardPath) (str "BoardBackground-"))
      if rd.2 then rd.1
      else loggerM (str "Error: Unable to download background image for board " ++ board.Name)
        (str "err") true false config rd.1
    else loggerM (str "No background image found for board" ++ board.Name) (str "info")
      true true config st
  let st := loggerM (str "Grabbing labels for board and saving as Markdown BoardLabels.md")
    (str "info") true true config st
  let labelsStep : St × Bool :=
    match w.getBoardLabels board.ID with
    | none =>
      (loggerM (str "Error: Unable to get label data for board ID " ++ board.ID ++
        str " (" ++ board.Name ++ str ")") (str "err") true false config st, true)
    | some labels =>
      let labelFileName := pjoin (pjoin config.ARGS.StoragePath boardPath) (str "BoardLabels.md")
      let rw := wfile w st labelFileName (labelsMarkdown labels)
      if rw.2 then (rw.1, true)
      else
        let st := loggerM (str "CRITICAL - Unable to write buffer to file for " ++ labelFileName)
          (str "err") true true config rw.1
        ({ st with flag := true }, false)
  if !labelsStep.2 then .done labelsStep.1 else
  let st := loggerM (str "Grabbing members for board: " ++ board.Name) (str "info")
    true true config labelsStep.1
  let membersStep : St × Bool :=
    match w.getBoardMembers board.ID with
    | none =>
      (loggerM (str "Error: Unable to get members for board ID " ++ board.ID) (str "err")
        true true config st, true)
    | some members =>
      let memberFileName := pjoin (pjoin config.ARGS.StoragePath boardPath) (str "BoardMembers.md")
      let rw := wfile w st memberFileName (membersMarkdown members)
      if rw.2 then (rw.1, true)
      else
        let st := loggerM (str "CRITICAL - Unable to write buffer to file for " ++ memberFileName)
          (str "err") true true config rw.1
        ({ st with flag := true }, false)
  if !membersStep.2 then .done membersStep.1 else
  let rc := fetchBoardCards w config board membersStep.1
  match rc.2 with
  | none =>
    let hr := handleProcessingError (some (.proc ⟨str "get board cards",
      str "board " ++ board.Name, .critical, str "fetch failed"⟩)) config rc.1
    .done hr.1
  | some cards =>
    if cards.length = 0 then
      let st := loggerM (str "CRITICAL - No cards found for board " ++ board.Name) (str "warn")
        true false config rc.1
      .done { st with flag := true }
    else
      let st :=
        if cards.length > 1 then
          loggerM (str "Found " ++ natToStr cards.length ++ str " cards to process.")
            (str "info") true false config rc.1
        else
          loggerM (str "Found " ++ natToStr cards.length ++ str " card to processs.")
            (str "info") true false config rc.1
      processCardsConcurrentlyM w cards board boardPath config st

/-- The board loop of main (the dump path): a board that cannot be fetched
is logged and skipped; the labels and count modes only print to the
console; otherwise dumpABoard runs and a reached os.Exit ends the whole
run. -/
def runBoardLoop (w : World) (config : Config) : List Str → St → RunRes
  | [], st => .done st
  | boardID :: rest, st =>
    match w.getBoard boardID with
    | none =>
      runBoardLoop w config rest
        (loggerM (str "Error: Unable to get board data for board ID" ++ boardID)
          (str "err") true false config st)
    | some board =>
      if config.ARGS.ListLabelIDs then
        let st := match w.getBoardLabels board.ID with
          | none =>
            loggerM (str "Error: Unable to get label data for board ID " ++ board.ID ++
              str " (" ++ board.Name ++ str ")") (str "err") true false config st
          | some _ => st
        runBoardLoop w config rest st
      else if config.ARGS.ListTotalCards then
        runBoardLoop w config rest st
      else
        let st := loggerM (str "Processing Board Name: " ++ board.Name) (str "info")
          true false config st
        match dumpABoard w config board st with
        | .exit st => .exit st
        | .done st =>
          runBoardLoop w config rest
            (loggerM (str "Processing Complete") (str "info") true false config st)

/-!
Small-step model of the worker pool (processCardsConcurrently and
processCardWorker).  A job dispatched on the buffered jobs channel is
taken by an idle worker (at most K workers hold a job at a time), the
worker pushes exactly one result on the results channel (carrying success
or failure), then increments the shared atomic counter once — the two
effects of the loop body of processCardWorker, in source order.  The
schedule (which worker moves when) is arbitrary.
-/

/-- Global state of the pool: jobs still queued, jobs held by workers
before their result send, jobs whose result was sent but whose counter
increment has not happened yet, fully completed jobs, and the contents of
the results channel. -/
structure PoolState where
  pending : ℕ
  taken : ℕ
  sent : ℕ
  completed : ℕ
  results : List Bool
deriving DecidableEq

/-- One scheduler step of the pool with K workers. -/
inductive PoolStep (K : ℕ) : PoolState → PoolState → Prop
  | take (s : PoolState) (hp : 0 < s.pending) (hK : s.taken + s.sent < K) :
      PoolStep K s ⟨s.pending - 1, s.taken + 1, s.sent, s.completed, s.results⟩
  | send (s : PoolState) (b : Bool) (ht : 0 < s.taken) :
      PoolStep K s ⟨s.pending, s.taken - 1, s.sent + 1, s.completed, s.results ++ [b]⟩
  | inc (s : PoolState) (hs : 0 < s.sent) :
      PoolStep K s ⟨s.pending, s.taken, s.sent - 1, s.completed + 1, s.results⟩

/-- Initial pool state for N cards: all jobs queued, nothing delivered. -/
def initPool (N : ℕ) : PoolState := ⟨N, 0, 0, 0, []⟩

/-- Reachability under an arbitrary schedule. -/
def PoolReach (K N : ℕ) (s : PoolState) : Prop :=
  Relation.ReflTransGen (PoolStep K) (initPool N) s

/-- The conservation invariant of the pool: jobs are neither created nor
lost, and the results channel holds one entry per job that passed its
send. -/
def PoolInv (N : ℕ) (s : PoolState) : Prop :=
  s.pending + s.taken + s.sent + s.completed = N ∧
  s.results.length = s.sent + s.completed

theorem poolInv_init (N : ℕ) : PoolInv N (initPool N) := by
  constructor <;> simp [initPool]

theorem poolInv_step {K N : ℕ} {s s2 : PoolState} (hinv : PoolInv N s)
    (hstep : PoolStep K s s2) : PoolInv N s2 := by
  obtain ⟨h1, h2⟩ := hinv
  cases hstep with
  | take hp hK => exact ⟨by simp; omega, by simpa using h2⟩
  | send b ht => exact ⟨by simp; omega, by simp [h2]; omega⟩
  | inc hs => exact ⟨by simp; omega, by simp [h2]; omega⟩

theorem poolInv_reach {K N : ℕ} {s : PoolState} (h : PoolReach K N s) :
    PoolInv N s := by
  induction h with
  | refl => exact poolInv_init N
  | tail _ hstep ih => exact poolInv_step ih hstep

/-- C8.  For every board with N cards processed by the worker pool with
pool size K, under any schedule: once the pool has drained (no job is
queued, held, or awaiting its counter increment), exactly N results have
been delivered on the results channel regardless of K, and the shared
completion counter is exactly N — one increment per completed job whether
its result was a success or a failure (the send step carries either). -/
theorem c8_worker_pool_counts (N K : ℕ) (s : PoolState)
    (hreach : PoolReach K N s)
    (hdrained : s.pending = 0 ∧ s.taken = 0 ∧ s.sent = 0) :
    s.results.length = N ∧ s.completed = N := by
  obtain ⟨h1, h2⟩ := poolInv_reach hreach
  obtain ⟨hp, ht, hs⟩ := hdrained
  constructor <;> omega

/-- C8 witness: a complete schedule for one card and one worker, with the
theorem applied to its final state. -/
theorem c8_witness :
    (PoolReach 1 1 ⟨0, 0, 0, 1, [true]⟩ ∧
      (0 = 0 ∧ 0 = 0 ∧ 0 = 0)) ∧
    ((⟨0, 0, 0, 1, [true]⟩ : PoolState).results.length = 1 ∧
      (⟨0, 0, 0, 1, [true]⟩ : PoolState).completed = 1) := by
  have s1 : PoolStep 1 (initPool 1) ⟨0, 1, 0, 0, []⟩ := by
    have := PoolStep.take (K := 1) (initPool 1) (by decide) (by decide)
    simpa [initPool] using this
  have s2 : PoolStep 1 ⟨0, 1, 0, 0, []⟩ ⟨0, 0, 1, 0, [true]⟩ := by
    have := PoolStep.send (K := 1) ⟨0, 1, 0, 0, []⟩ true (by decide)
    simpa using this
  have s3 : PoolStep 1 ⟨0, 0, 1, 0, [true]⟩ ⟨0, 0, 0, 1, [true]⟩ := by
    have := PoolStep.inc (K := 1) ⟨0, 0, 1, 0, [true]⟩ (by decide)
    simpa using this
  have hreach : PoolReach 1 1 ⟨0, 0, 0, 1, [true]⟩ :=
    Relation.ReflTransGen.tail
      (Relation.ReflTransGen.tail (Relation.ReflTransGen.tail .refl s1) s2) s3
  exact ⟨⟨hreach, rfl, rfl, rfl⟩,
    c8_worker_pool_counts 1 1 ⟨0, 0, 0, 1, [true]⟩ hreach ⟨rfl, rfl, rfl⟩⟩

/-- C5.  The card directory computed by processRegularCard: a closed card
with split-mode off lands at board/list/card (ARCHIVED); a closed card
with split-mode on lands at board/ARCHIVED/list/card; an open card lands
at board/list/card — the card segment always passing through the
sanitizer (the board and list segments were sanitized by the callers). -/
theorem c5_archived_card_paths (A : ARGS) (E : ENV) (boardPath cleanListPath now : Str)
    (card : Card) :
    cardDirPath ⟨{ A with SeparateArchived := false }, E⟩ boardPath cleanListPath
        { card with Closed := true } now =
      pjoin (pjoin (pjoin A.StoragePath boardPath) cleanListPath)
        (SanitizePathName now card.Name ++ str " (ARCHIVED)") ∧
    cardDirPath ⟨{ A with SeparateArchived := true }, E⟩ boardPath cleanListPath
        { card with Closed := true } now =
      pjoin (pjoin (pjoin (pjoin A.StoragePath boardPath) (str "ARCHIVED")) cleanListPath)
        (SanitizePathName now card.Name) ∧
    cardDirPath ⟨A, E⟩ boardPath cleanListPath { card with Closed := false } now =
      pjoin (pjoin (pjoin A.StoragePath boardPath) cleanListPath)
        (SanitizePathName now card.Name) := by
  refine ⟨?_, ?_, ?_⟩ <;> simp [cardDirPath]

/-- C6.  For every classified failure fed to handleProcessingError: the
handler returns nil exactly when the severity is Warning; the run-status
flag afterwards is the old flag or-ed with whether the severity is
Critical (so a Warning leaves it unchanged and a Critical sets it); the
failure is logged (exactly one log line is appended) and the filesystem
is untouched. -/
theorem c6_handle_processing_error (pe : ProcessingError) (config : Config) (st : St) :
    ((handleProcessingError (some (.proc pe)) config st).2 = none ↔
      pe.Severity = .warning) ∧
    (handleProcessingError (some (.proc pe)) config st).1.flag =
      (st.flag || pe.Severity == .critical) ∧
    (handleProcessingError (some (.proc pe)) config st).1.logs.length =
      st.logs.length + 1 ∧
    (handleProcessingError (some (.proc pe)) config st).1.fs = st.fs := by
  cases hsev : pe.Severity <;>
    simp [handleProcessingError, loggerM, hsev]

/-- C10.  When a card has no comments, members, labels, history, due date
or start date, the corresponding empty sentinel file is written with its
write error discarded: for every world — in particular one where the
write fails — the step returns success, the run-status flag is unchanged,
exactly the expected log lines are appended (no failure is ever logged),
and the file entry appears exactly when the write succeeded. -/
theorem c10_silent_empty_file_writes (w : World) (card : Card) (cardPath : Str)
    (config : Config) (st : St)
    (hact : card.Actions = some [])
    (hmem : card.Members = some [])
    (hlab : card.Labels = some [])
    (hdue : card.Due = none)
    (hstart : card.Start = none) :
    processCardComments w card cardPath config st = .ok
      ⟨st.fs ++ (if w.writeFails (pjoin cardPath (str "CardComments.md")) then []
          else [Entry.file (pjoin cardPath (str "CardComments.md")) []]),
        st.flag,
        st.logs ++ [(str "Grabbing comments for card: " ++ card.Name, str "info"),
          (str "No comments found on card " ++ card.Name, str "warn")],
        st.tracker⟩ ∧
    processCardUsers w card cardPath config st = .ok
      ⟨st.fs ++ (if w.writeFails (pjoin cardPath (str "CardUsers.md")) then []
          else [Entry.file (pjoin cardPath (str "CardUsers.md")) []]),
        st.flag,
        st.logs ++ [(str "Grabbing users for card: " ++ card.Name, str "info"),
          (str "No users found on card " ++ card.Name, str "warn")],
        st.tracker⟩ ∧
    processCardLabels w card cardPath config st = .ok
      ⟨st.fs ++ (if w.writeFails (pjoin cardPath (str "CardLabels.md")) then []
          else [Entry.file (pjoin cardPath (str "CardLabels.md")) []]),
        st.flag,
        st.logs ++ [(str "Grabbing labels for card: " ++ card.Name, str "info"),
          (str "No labels found on card " ++ card.Name, str "warn")],
        st.tracker⟩ ∧
    processCardHistory w card cardPath config st = .ok
      ⟨st.fs ++ (if w.writeFails (pjoin cardPath (str "CardHistory.md")) then []
          else [Entry.file (pjoin cardPath (str "CardHistory.md")) []]),
        st.flag,
        st.logs ++ [(str "Grabbing history for card: " ++ card.Name, str "info"),
          (str "No history found for card " ++ card.Name, str "warn")],
        st.tracker⟩ ∧
    processCardDates w card cardPath config st = .ok
      ⟨(st.fs ++ (if w.writeFails (pjoin cardPath (str "CardDueDate.md")) then []
          else [Entry.file (pjoin cardPath (str "CardDueDate.md")) []])) ++
        (if w.writeFails (pjoin cardPath (str "CardStartDate.md")) then []
          else [Entry.file (pjoin cardPath (str "CardStartDate.md")) []]),
        st.flag,
        st.logs ++ [(str "No due date found for card " ++ card.Name, str "warn"),
          (str "No start date found for card " ++ card.Name, str "warn")],
        st.tracker⟩ := by
  refine ⟨?_, ?_, ?_, ?_, ?_⟩
  · by_cases hw : w.writeFails (pjoin cardPath (str "CardComments.md")) <;>
      simp [processCardComments, hact, loggerM, wfile, hw]
  · by_cases hw : w.writeFails (pjoin cardPath (str "CardUsers.md")) <;>
      simp [processCardUsers, hmem, loggerM, wfile, hw]
  · by_cases hw : w.writeFails (pjoin cardPath (str "CardLabels.md")) <;>
      simp [processCardLabels, hlab, loggerM, wfile, hw]
  · by_cases hw : w.writeFails (pjoin cardPath (str "CardHistory.md")) <;>
      simp [processCardHistory, hact, loggerM, wfile, hw]
  · by_cases hw1 : w.writeFails (pjoin cardPath (str "CardDueDate.md")) <;>
      by_cases hw2 : w.writeFails (pjoin cardPath (str "CardStartDate.md")) <;>
      simp [processCardDates, processStartDatePart, hdue, hstart, loggerM, wfile, hw1, hw2]

/-- A world in which every file write fails and every remote call
errors. -/
def failWorld : World :=
  ⟨str "20060102-150405", fun _ => true, fun _ => false, fun _ => false, fun _ => [],
    fun _ => none, fun _ => none, fun _ => none, fun _ => none, fun _ => none,
    fun _ => none, fun _ => none, fun _ => none, fun _ => none, fun _ => none,
    fun _ => none, fun _ => none, fun _ => none, fun _ => none, fun _ => none,
    fun _ => none⟩

/-- A card with empty comprehensive collections and no dates or cover. -/
def c10card : Card :=
  ⟨str "id1", str "c", [], false, str "l1", none, false, none, none, none,
    some [], some [], some [], []⟩

/-- The default configuration used by concrete runs. -/
def config0 : Config :=
  ⟨⟨false, false, false, false, false, false, str "s", [], []⟩, ⟨[], [], []⟩⟩

/-- The empty initial state. -/
def emptySt : St := ⟨[], false, [], []⟩

/-- C10 witness: the theorem applied to a concrete empty-collection card
under the all-writes-fail world. -/
theorem c10_witness :
    (c10card.Actions = some [] ∧ c10card.Members = some [] ∧ c10card.Labels = some [] ∧
      c10card.Due = none ∧ c10card.Start = none) ∧
    (processCardComments failWorld c10card (str "p") config0 emptySt = .ok
      ⟨emptySt.fs ++ (if failWorld.writeFails (pjoin (str "p") (str "CardComments.md")) then []
          else [Entry.file (pjoin (str "p") (str "CardComments.md")) []]),
        emptySt.flag,
        emptySt.logs ++ [(str "Grabbing comments for card: " ++ c10card.Name, str "info"),
          (str "No comments found on card " ++ c10card.Name, str "warn")],
        emptySt.tracker⟩ ∧
    processCardUsers failWorld c10card (str "p") config0 emptySt = .ok
      ⟨emptySt.fs ++ (if failWorld.writeFails (pjoin (str "p") (str "CardUsers.md")) then []
          else [Entry.file (pjoin (str "p") (str "CardUsers.md")) []]),
        emptySt.flag,
        emptySt.logs ++ [(str "Grabbing users for card: " ++ c10card.Name, str "info"),
          (str "No users found on card " ++ c10card.Name, str "warn")],
        emptySt.tracker⟩ ∧
    processCardLabels failWorld c10card (str "p") config0 emptySt = .ok
      ⟨emptySt.fs ++ (if failWorld.writeFails (pjoin (str "p") (str "CardLabels.md")) then []
          else [Entry.file (pjoin (str "p") (str "CardLabels.md")) []]),
        emptySt.flag,
        emptySt.logs ++ [(str "Grabbing labels for card: " ++ c10card.Name, str "info"),
          (str "No labels found on card " ++ c10card.Name, str "warn")],
        emptySt.tracker⟩ ∧
    processCardHistory failWorld c10card (str "p") config0 emptySt = .ok
      ⟨emptySt.fs ++ (if failWorld.writeFails (pjoin (str "p") (str "CardHistory.md")) then []
          else [Entry.file (pjoin (str "p") (str "CardHistory.md")) []]),
        emptySt.flag,
        emptySt.logs ++ [(str "Grabbing history for card: " ++ c10card.Name, str "info"),
          (str "No history found for card " ++ c10card.Name, str "warn")],
        emptySt.tracker⟩ ∧
    processCardDates failWorld c10card (str "p") config0 emptySt = .ok
      ⟨(emptySt.fs ++ (if failWorld.writeFails (pjoin (str "p") (str "CardDueDate.md")) then []
          else [Entry.file (pjoin (str "p") (str "CardDueDate.md")) []])) ++
        (if failWorld.writeFails (pjoin (str "p") (str "CardStartDate.md")) then []
          else [Entry.file (pjoin (str "p") (str "CardStartDate.md")) []]),
        emptySt.flag,
        emptySt.logs ++ [(str "No due date found for card " ++ c10card.Name, str "warn"),
          (str "No start date found for card " ++ c10card.Name, str "warn")],
        emptySt.tracker⟩) :=
  ⟨⟨rfl, rfl, rfl, rfl, rfl⟩,
    c10_silent_empty_file_writes failWorld c10card (str "p") config0 emptySt
      rfl rfl rfl rfl rfl⟩

/-- The filesystem only ever grows: b extends a. -/
def fsLe (a b : List Entry) : Prop := ∃ t, a ++ t = b

theorem fsLe_refl (a : List Entry) : fsLe a a := ⟨[], by simp⟩

theorem fsLe_trans {a b c : List Entry} (h1 : fsLe a b) (h2 : fsLe b c) : fsLe a c := by
  obtain ⟨t1, rfl⟩ := h1
  obtain ⟨t2, rfl⟩ := h2
  exact ⟨t1 ++ t2, by simp⟩

theorem fsLe_append (a : List Entry) (t : List Entry) : fsLe a (a ++ t) := ⟨t, rfl⟩

theorem containsFile_append (a b : List Entry) (p : Str) :
    containsFile (a ++ b) p = (containsFile a p || containsFile b p) := by
  simp [containsFile, List.any_append]

theorem statEx_append (a b : List Entry) (p : Str) :
    statEx (a ++ b) p = (statEx a p || statEx b p) := by
  simp [statEx, List.any_append]

theorem containsFile_mono {a b : List Entry} {p : Str} (h : fsLe a b)
    (hc : containsFile a p = true) : containsFile b p = true := by
  obtain ⟨t, rfl⟩ := h
  rw [containsFile_append, hc]
  rfl

theorem statEx_mono {a b : List Entry} {p : Str} (h : fsLe a b)
    (hc : statEx a p = true) : statEx b p = true := by
  obtain ⟨t, rfl⟩ := h
  rw [statEx_append, hc]
  rfl

theorem containsFile_singleton_self (p : Str) (c : Str) :
    containsFile [Entry.file p c] p = true := by
  simp [containsFile]

theorem statEx_singleton_dir (p : Str) : statEx [Entry.dir p] p = true := by
  simp [statEx, entryPath]

/-- A run with no injected faults: every write, mkdir and download
succeeds and every per-card remote call returns data. -/
structure CleanWorld (w : World) : Prop where
  wok : ∀ p, w.writeFails p = false
  mok : ∀ p, w.mkdirFails p = false
  dok : ∀ u, w.downloadFails u = false
  attok : ∀ id, (w.getAttachments id).isSome
  comok : ∀ id, (w.getActionsComments id).isSome
  histok : ∀ id, (w.getActionsAll id).isSome
  memok : ∀ id, (w.getMembers id).isSome
  labok : ∀ id, (w.getCardLabels id).isSome
  chkok : ∀ id, (w.getChecklist id).isSome
  listok : ∀ id, (w.getList id).isSome

theorem wfile_clean {w : World} (hw : ∀ q, w.writeFails q = false) (st : St) (p c : Str) :
    wfile w st p c = ({ st with fs := st.fs ++ [Entry.file p c] }, true) := by
  simp [wfile, hw]

theorem dirCreate_clean {w : World} (hw : ∀ q, w.mkdirFails q = false)
    (config : Config) (st : St) (p : Str) :
    (dirCreate w config st p).2 = true ∧
    fsLe st.fs (dirCreate w config st p).1.fs ∧
    statEx (dirCreate w config st p).1.fs p = true ∧
    (dirCreate w config st p).1.flag = st.flag := by
  by_cases hs : statEx st.fs p
  · have hval : dirCreate w config st p =
        (loggerM (str "Requested directory already exists: " ++ p) (str "info")
          true true config st, true) := by
      simp [dirCreate, hs]
    rw [hval]
    exact ⟨rfl, fsLe_refl _, hs, rfl⟩
  · have hval : dirCreate w config st p =
        ({ loggerM (str "Creating requested directory:" ++ p) (str "info")
            true true config st with fs := st.fs ++ [Entry.dir p] }, true) := by
      simp [dirCreate, hs, hw, loggerM]
    rw [hval]
    refine ⟨rfl, fsLe_append _ _, ?_, rfl⟩
    show statEx (st.fs ++ [Entry.dir p]) p = true
    rw [statEx_append, statEx_singleton_dir]
    simp

theorem processCardDescription_clean {w : World} (hw : CleanWorld w) (card : Card)
    (cardPath : Str) (config : Config) (st : St) :
    ∃ st2, processCardDescription w card cardPath config st = .ok st2 ∧
      fsLe st.fs st2.fs ∧
      containsFile st2.fs (pjoin cardPath (str "CardDescription.md")) = true := by
  have hval : processCardDescription w card cardPath config st =
      .ok { loggerM (str "Dumping card: " ++ card.Name) (str "info") true true config st with
        fs := st.fs ++ [Entry.file (pjoin cardPath (str "CardDescription.md")) card.Desc] } := by
    simp [processCardDescription, wfile, hw.wok, loggerM]
  rw [hval]
  refine ⟨_, rfl, fsLe_append _ _, ?_⟩
  show containsFile (st.fs ++ [Entry.file (pjoin cardPath (str "CardDescription.md")) card.Desc]) _ = true
  rw [containsFile_append, containsFile_singleton_self]
  simp

theorem processOneAttachment_fsLe {w : World} (hw : CleanWorld w) (card : Card)
    (cardPath : Str) (config : Config) (acc : St × Str) (a : Attachment) :
    fsLe acc.1.fs (processOneAttachment w card cardPath config acc a).1.fs := by
  unfold processOneAttachment downloadFileAuthHeader
  by_cases hu : a.IsUpload
  · simp only [hu, hw.dok, hw.wok, if_true, Bool.false_eq_true, if_false, loggerM]
    split
    · exact fsLe_append _ _
    · exact fsLe_append _ _
  · simp only [hu, Bool.false_eq_true, if_false]
    exact fsLe_refl _

theorem attachFold_fsLe {w : World} (hw : CleanWorld w) (card : Card)
    (cardPath : Str) (config : Config) (l : List Attachment) :
    ∀ acc : St × Str,
      fsLe acc.1.fs (l.foldl (processOneAttachment w card cardPath config) acc).1.fs := by
  induction l with
  | nil => intro acc; exact fsLe_refl _
  | cons a rest ih =>
    intro acc
    rw [List.foldl_cons]
    exact fsLe_trans (processOneAttachment_fsLe hw card cardPath config acc a) (ih _)

/-- The list of attachments the step actually iterates: the comprehensive
field, or the fallback fetch. -/
def effAttachments (w : World) (card : Card) : List Attachment :=
  match card.Attachments with
  | some l => l
  | none => (w.getAttachments card.ID).getD []

theorem processCardAttachments_clean {w : World} (hw : CleanWorld w) (card : Card)
    (cardPath : Str) (config : Config) (st : St) :
    ∃ st2, processCardAttachments w card cardPath config st = .ok st2 ∧
      fsLe st.fs st2.fs ∧
      statEx st2.fs (pjoin cardPath (str "attachments")) = true ∧
      (effAttachments w card ≠ [] →
        containsFile st2.fs
          (pjoin (pjoin cardPath (str "attachments")) (str "URL-Attachments.md")) = true) := by
  have hatt : ∃ l, (match card.Attachments with
      | some l => some l
      | none => w.getAttachments card.ID) = some l ∧ effAttachments w card = l := by
    rcases hA : card.Attachments with _ | l
    · obtain ⟨l, hl⟩ := Option.isSome_iff_exists.mp (hw.attok card.ID)
      exact ⟨l, by rw [hl], by simp [effAttachments, hA, hl]⟩
    · exact ⟨l, rfl, by simp [effAttachments, hA]⟩
  obtain ⟨l, hl, heff⟩ := hatt
  unfold processCardAttachments
  rw [hl]
  by_cases hlen : l.length > 0
  · simp only [hlen, if_true]
    obtain ⟨hd2, hdle, hdst, _⟩ := dirCreate_clean hw.mok config st
      (pjoin cardPath (str "attachments"))
    rw [hd2]
    simp only [Bool.not_true, Bool.false_eq_true, if_false, ite_false]
    set stl := loggerM (card.Name ++ str " has " ++ natToStr l.length ++ str " attachments")
      (str "info") true true config (dirCreate w config st (pjoin cardPath (str "attachments"))).1 with hstl
    have hfle : fsLe (dirCreate w config st (pjoin cardPath (str "attachments"))).1.fs
        (l.foldl (processOneAttachment w card cardPath config) (stl, [])).1.fs := by
      have := attachFold_fsLe hw card cardPath config l (stl, [])
      simpa [hstl, loggerM] using this
    rw [wfile_clean hw.wok]
    simp only [if_true]
    refine ⟨_, rfl, ?_, ?_, fun _ => ?_⟩
    · refine fsLe_trans hdle (fsLe_trans hfle (fsLe_append _ _))
    · exact statEx_mono (fsLe_trans hfle (fsLe_append _ _)) hdst
    · show containsFile (_ ++ [Entry.file (pjoin (pjoin cardPath (str "attachments"))
        (str "URL-Attachments.md")) _]) _ = true
      rw [containsFile_append, containsFile_singleton_self]
      simp
  · simp only [hlen, if_false]
    obtain ⟨hd2, hdle, hdst, _⟩ := dirCreate_clean hw.mok config
      (loggerM (str "No attachments found for card " ++ card.Name) (str "warn")
        true true config st)
      (pjoin cardPath (str "attachments"))
    rw [hd2]
    simp only [if_true]
    refine ⟨_, rfl, ?_, hdst, fun hne => ?_⟩
    · exact fsLe_trans (by simpa [loggerM] using fsLe_refl st.fs) (by simpa [loggerM] using hdle)
    · exfalso
      rw [heff] at hne
      have : l = [] := by
        rcases l with _ | ⟨x, xs⟩
        · rfl
        · simp at hlen
      exact hne this

theorem checklistLoop_clean {w : World} (hw : CleanWorld w) (cardPath : Str)
    (config : Config) (ids : List Str) :
    ∀ (st : St) (n : ℕ), ∃ st2, checklistLoop w cardPath config ids st n = .ok st2 ∧
      fsLe st.fs st2.fs := by
  induction ids with
  | nil => intro st n; exact ⟨st, rfl, fsLe_refl _⟩
  | cons cid rest ih =>
    intro st n
    by_cases hcid : cid = []
    · simp only [checklistLoop, hcid, if_pos rfl]
      exact ih st n
    · obtain ⟨cl, hcl⟩ := Option.isSome_iff_exists.mp (hw.chkok cid)
      simp only [checklistLoop, if_neg hcid, hcl]
      by_cases hstat : statEx (loggerM (str "Processing checklist: " ++
          SanitizePathName w.now cl.Name) (str "info") true true config st).fs
          (pjoin (pjoin cardPath (str "checklists")) (SanitizePathName w.now cl.Name ++ str ".md"))
      · rw [if_pos hstat]
        try dsimp only
        rw [wfile_clean hw.wok]
        try dsimp only
        rw [if_pos rfl]
        obtain ⟨st2, h2, hle2⟩ := ih _ (n + 1)
        refine ⟨st2, h2, fsLe_trans (fsLe_append _ _) hle2⟩
      · rw [if_neg hstat]
        try dsimp only
        rw [wfile_clean hw.wok]
        try dsimp only
        rw [if_pos rfl]
        obtain ⟨st2, h2, hle2⟩ := ih _ n
        refine ⟨st2, h2, fsLe_trans (fsLe_append _ _) hle2⟩

theorem processCardChecklists_clean {w : World} (hw : CleanWorld w) (card : Card)
    (cardPath : Str) (config : Config) (st : St) :
    ∃ st2, processCardChecklists w card cardPath config st = .ok st2 ∧
      fsLe st.fs st2.fs ∧
      statEx st2.fs (pjoin cardPath (str "checklists")) = true := by
  unfold processCardChecklists
  dsimp only
  rcases hdc : dirCreate w config (loggerM (str "Found " ++ natToStr card.IDCheckLists.length ++
      str " checklists for card " ++ card.Name) (str "info") true true config st)
      (pjoin cardPath (str "checklists")) with ⟨s1, b1⟩
  have hprops := dirCreate_clean hw.mok config (loggerM (str "Found " ++
    natToStr card.IDCheckLists.length ++ str " checklists for card " ++ card.Name)
    (str "info") true true config st) (pjoin cardPath (str "checklists"))
  rw [hdc] at hprops
  obtain ⟨hb1, hle1, hst1, _⟩ := hprops
  dsimp only at hb1 hle1 hst1
  subst hb1
  simp only [Bool.not_true, Bool.false_eq_true, if_false]
  obtain ⟨st2, h2, hle2⟩ := checklistLoop_clean hw cardPath config card.IDCheckLists s1 0
  rw [h2]
  exact ⟨st2, rfl, fsLe_trans hle1 hle2, statEx_mono hle2 hst1⟩

theorem write_out_props (stA : St) {stB : St} (p : Str) (c : Str)
    (h : stB.fs = stA.fs ++ [Entry.file p c]) :
    fsLe stA.fs stB.fs ∧ containsFile stB.fs p = true := by
  rw [h]
  refine ⟨fsLe_append _ _, ?_⟩
  rw [containsFile_append, containsFile_singleton_self]
  simp

theorem processCardComments_clean {w : World} (hw : CleanWorld w) (card : Card)
    (cardPath : Str) (config : Config) (st : St) :
    ∃ st2, processCardComments w card cardPath config st = .ok st2 ∧
      fsLe st.fs st2.fs ∧
      containsFile st2.fs (pjoin cardPath (str "CardComments.md")) = true := by
  have hcom : ∃ l, (match card.Actions with
      | some acts => some (acts.filter (fun a => a.Typ == str "commentCard"))
      | none => w.getActionsComments card.ID) = some l := by
    rcases hA : card.Actions with _ | acts
    · exact Option.isSome_iff_exists.mp (hw.comok card.ID)
    · exact ⟨_, rfl⟩
  obtain ⟨l, hl⟩ := hcom
  unfold processCardComments
  rw [hl]
  dsimp only
  by_cases hlen : l.length > 0
  · rw [if_pos hlen]
    try dsimp only
    rw [wfile_clean hw.wok]
    try dsimp only
    rw [if_pos rfl]
    refine ⟨_, rfl, ?_, ?_⟩
    · exact (write_out_props st _ _ rfl).1
    · exact (write_out_props st _ _ rfl).2
  · rw [if_neg hlen]
    try dsimp only
    rw [wfile_clean hw.wok]
    try dsimp only
    refine ⟨_, rfl, ?_, ?_⟩
    · exact (write_out_props st _ _ rfl).1
    · exact (write_out_props st _ _ rfl).2

theorem processCardUsers_clean {w : World} (hw : CleanWorld w) (card : Card)
    (cardPath : Str) (config : Config) (st : St) :
    ∃ st2, processCardUsers w card cardPath config st = .ok st2 ∧
      fsLe st.fs st2.fs ∧
      containsFile st2.fs (pjoin cardPath (str "CardUsers.md")) = true := by
  have hmem : ∃ l, (match card.Members with
      | some l => some l
      | none => w.getMembers card.ID) = some l := by
    rcases hA : card.Members with _ | ms
    · exact Option.isSome_iff_exists.mp (hw.memok card.ID)
    · exact ⟨_, rfl⟩
  obtain ⟨l, hl⟩ := hmem
  unfold processCardUsers
  rw [hl]
  dsimp only
  by_cases hlen : l.length > 0
  · rw [if_pos hlen]
    try dsimp only
    rw [wfile_clean hw.wok]
    try dsimp only
    rw [if_pos rfl]
    refine ⟨_, rfl, ?_, ?_⟩
    · exact (write_out_props st _ _ rfl).1
    · exact (write_out_props st _ _ rfl).2
  · rw [if_neg hlen]
    try dsimp only
    rw [wfile_clean hw.wok]
    try dsimp only
    refine ⟨_, rfl, ?_, ?_⟩
    · exact (write_out_props st _ _ rfl).1
    · exact (write_out_props st _ _ rfl).2

theorem processCardLabels_clean {w : World} (hw : CleanWorld w) (card : Card)
    (cardPath : Str) (config : Config) (st : St) :
    ∃ st2, processCardLabels w card cardPath config st = .ok st2 ∧
      fsLe st.fs st2.fs ∧
      containsFile st2.fs (pjoin cardPath (str "CardLabels.md")) = true := by
  have hlab : ∃ l, (match card.Labels with
      | some l => some l
      | none => w.getCardLabels card.ID) = some l := by
    rcases hA : card.Labels with _ | ls
    · exact Option.isSome_iff_exists.mp (hw.labok card.ID)
    · exact ⟨_, rfl⟩
  obtain ⟨l, hl⟩ := hlab
  unfold processCardLabels
  rw [hl]
  dsimp only
  by_cases hlen : l.length > 0
  · rw [if_pos hlen]
    try dsimp only
    rw [wfile_clean hw.wok]
    try dsimp only
    rw [if_pos rfl]
    refine ⟨_, rfl, ?_, ?_⟩
    · exact (write_out_props st _ _ rfl).1
    · exact (write_out_props st _ _ rfl).2
  · rw [if_neg hlen]
    try dsimp only
    rw [wfile_clean hw.wok]
    try dsimp only
    refine ⟨_, rfl, ?_, ?_⟩
    · exact (write_out_props st _ _ rfl).1
    · exact (write_out_props st _ _ rfl).2

theorem processCardHistory_clean {w : World} (hw : CleanWorld w) (card : Card)
    (cardPath : Str) (config : Config) (st : St) :
    ∃ st2, processCardHistory w card cardPath config st = .ok st2 ∧
      fsLe st.fs st2.fs ∧
      containsFile st2.fs (pjoin cardPath (str "CardHistory.md")) = true := by
  have hhist : ∃ l, (match card.Actions with
      | some l => some l
      | none => w.getActionsAll card.ID) = some l := by
    rcases hA : card.Actions with _ | acts
    · exact Option.isSome_iff_exists.mp (hw.histok card.ID)
    · exact ⟨_, rfl⟩
  obtain ⟨l, hl⟩ := hhist
  unfold processCardHistory
  rw [hl]
  dsimp only
  by_cases hlen : l.length > 0
  · rw [if_pos hlen]
    try dsimp only
    rw [wfile_clean hw.wok]
    try dsimp only
    rw [if_pos rfl]
    refine ⟨_, rfl, ?_, ?_⟩
    · exact (write_out_props st _ _ rfl).1
    · exact (write_out_props st _ _ rfl).2
  · rw [if_neg hlen]
    try dsimp only
    rw [wfile_clean hw.wok]
    try dsimp only
    refine ⟨_, rfl, ?_, ?_⟩
    · exact (write_out_props st _ _ rfl).1
    · exact (write_out_props st _ _ rfl).2

theorem processStartDatePart_clean {w : World} (hw : CleanWorld w) (card : Card)
    (cardPath : Str) (config : Config) (st : St) :
    ∃ st2, processStartDatePart w card cardPath config st = .ok st2 ∧
      fsLe st.fs st2.fs ∧
      containsFile st2.fs (pjoin cardPath (str "CardStartDate.md")) = true := by
  unfold processStartDatePart
  rcases hS : card.Start with _ | d
  · dsimp only
    rw [wfile_clean hw.wok]
    try dsimp only
    refine ⟨_, rfl, ?_, ?_⟩
    · exact (write_out_props st _ _ rfl).1
    · exact (write_out_props st _ _ rfl).2
  · dsimp only
    rw [wfile_clean hw.wok]
    try dsimp only
    rw [if_pos rfl]
    refine ⟨_, rfl, ?_, ?_⟩
    · exact (write_out_props st _ _ rfl).1
    · exact (write_out_props st _ _ rfl).2

theorem processCardDates_clean {w : World} (hw : CleanWorld w) (card : Card)
    (cardPath : Str) (config : Config) (st : St) :
    ∃ st2, processCardDates w card cardPath config st = .ok st2 ∧
      fsLe st.fs st2.fs ∧
      (containsFile st2.fs (pjoin cardPath (str "CardDueDate.md")) = true ∨
        containsFile st2.fs (pjoin cardPath (str "CardDueDate (Completed).md")) = true) ∧
      containsFile st2.fs (pjoin cardPath (str "CardStartDate.md")) = true := by
  have comp : ∀ (stMid : St) (P : St → Prop),
      (∀ st2, fsLe stMid.fs st2.fs →
        containsFile st2.fs (pjoin cardPath (str "CardStartDate.md")) = true → P st2) →
      ∃ st2, processStartDatePart w card cardPath config stMid = .ok st2 ∧ P st2 := by
    intro stMid P hP
    obtain ⟨st2, h2, hle, hcf⟩ := processStartDatePart_clean hw card cardPath config stMid
    exact ⟨st2, h2, hP st2 hle hcf⟩
  unfold processCardDates
  rcases hD : card.Due with _ | d
  · try dsimp only
    rw [wfile_clean hw.wok]
    try dsimp only
    refine comp _ _ ?_
    intro st2 hle hcf
    refine ⟨?_, Or.inl (containsFile_mono hle ?_), hcf⟩
    · exact fsLe_trans (fsLe_append _ _) hle
    · show containsFile (st.fs ++ [Entry.file (pjoin cardPath (str "CardDueDate.md")) []]) _ = true
      rw [containsFile_append, containsFile_singleton_self]
      simp
  · try dsimp only
    by_cases hDC : card.DueComplete = true
    · rw [if_pos hDC, wfile_clean hw.wok]
      try dsimp only
      rw [if_pos rfl]
      refine comp _ _ ?_
      intro st2 hle hcf
      refine ⟨?_, Or.inr (containsFile_mono hle ?_), hcf⟩
      · exact fsLe_trans (fsLe_append _ _) hle
      · show containsFile (st.fs ++
          [Entry.file (pjoin cardPath (str "CardDueDate (Completed).md")) d]) _ = true
        rw [containsFile_append, containsFile_singleton_self]
        simp
    · rw [if_neg hDC, wfile_clean hw.wok]
      try dsimp only
      rw [if_pos rfl]
      refine comp _ _ ?_
      intro st2 hle hcf
      refine ⟨?_, Or.inl (containsFile_mono hle ?_), hcf⟩
      · exact fsLe_trans (fsLe_append _ _) hle
      · show containsFile (st.fs ++ [Entry.file (pjoin cardPath (str "CardDueDate.md")) d]) _ = true
        rw [containsFile_append, containsFile_singleton_self]
        simp

theorem processCardCover_clean {w : World} (hw : CleanWorld w) (card : Card)
    (cardPath : Str) (config : Config) (st : St) :
    ∃ st2, processCardCover w card cardPath config st = .ok st2 ∧ fsLe st.fs st2.fs := by
  unfold processCardCover
  rcases hC : card.Cover with _ | cv
  · exact ⟨_, rfl, fsLe_refl _⟩
  · dsimp only
    by_cases hcol : cv.Color ≠ []
    · rw [if_pos hcol]
      try dsimp only
      rw [wfile_clean hw.wok]
      try dsimp only
      rw [if_pos rfl]
      exact ⟨_, rfl, fsLe_append _ _⟩
    · rw [if_neg hcol]
      exact ⟨_, rfl, fsLe_refl _⟩

theorem runChain_cons (f : St → StepRes) (fs : List (St → StepRes)) (st : St) :
    runChain (f :: fs) st = seqR (f st) (runChain fs) := rfl

theorem runChain_nil (st : St) : runChain [] st = .ok st := rfl

/-- C1 (amended).  For every regular card processed against a fault-free
world, processRegularCard succeeds and afterwards the card directory
contains CardDescription.md, an attachments subdirectory, a checklists
subdirectory, CardComments.md, CardUsers.md, CardLabels.md,
CardHistory.md, a due-date file and a start-date file, even when the
corresponding remote collection was empty (empty collections yield empty
files rather than missing ones) — with one exception forced by the code:
URL-Attachments.md exists inside attachments only when the card has at
least one attachment; a card with no attachments gets only the empty
attachments directory. -/
theorem c1_regular_card_expected_files (w : World) (card : Card) (config : Config)
    (boardPath cleanListPath : Str) (st : St) (hw : CleanWorld w) :
    ∃ st2, processRegularCard w card config boardPath cleanListPath st = .ok st2 ∧
      containsFile st2.fs (pjoin (cardDirPath config boardPath cleanListPath card w.now)
        (str "CardDescription.md")) = true ∧
      statEx st2.fs (pjoin (cardDirPath config boardPath cleanListPath card w.now)
        (str "attachments")) = true ∧
      statEx st2.fs (pjoin (cardDirPath config boardPath cleanListPath card w.now)
        (str "checklists")) = true ∧
      containsFile st2.fs (pjoin (cardDirPath config boardPath cleanListPath card w.now)
        (str "CardComments.md")) = true ∧
      containsFile st2.fs (pjoin (cardDirPath config boardPath cleanListPath card w.now)
        (str "CardUsers.md")) = true ∧
      containsFile st2.fs (pjoin (cardDirPath config boardPath cleanListPath card w.now)
        (str "CardLabels.md")) = true ∧
      containsFile st2.fs (pjoin (cardDirPath config boardPath cleanListPath card w.now)
        (str "CardHistory.md")) = true ∧
      (containsFile st2.fs (pjoin (cardDirPath config boardPath cleanListPath card w.now)
        (str "CardDueDate.md")) = true ∨
       containsFile st2.fs (pjoin (cardDirPath config boardPath cleanListPath card w.now)
        (str "CardDueDate (Completed).md")) = true) ∧
      containsFile st2.fs (pjoin (cardDirPath config boardPath cleanListPath card w.now)
        (str "CardStartDate.md")) = true ∧
      (effAttachments w card ≠ [] →
        containsFile st2.fs (pjoin (pjoin (cardDirPath config boardPath cleanListPath card w.now)
          (str "attachments")) (str "URL-Attachments.md")) = true) := by
  set p := cardDirPath config boardPath cleanListPath card w.now with hp
  rcases hdc : dirCreate w config st p with ⟨s0, b0⟩
  have hdp := dirCreate_clean hw.mok config st p
  rw [hdc] at hdp
  obtain ⟨hb0, _, _, _⟩ := hdp
  dsimp only at hb0
  subst hb0
  obtain ⟨s1, h1, hle1, hcf1⟩ := processCardDescription_clean hw card p config s0
  obtain ⟨s2, h2, hle2, hst2, hurl2⟩ := processCardAttachments_clean hw card p config s1
  obtain ⟨s3, h3, hle3, hst3⟩ := processCardChecklists_clean hw card p config s2
  obtain ⟨s4, h4, hle4, hcf4⟩ := processCardComments_clean hw card p config s3
  obtain ⟨s5, h5, hle5, hcf5⟩ := processCardUsers_clean hw card p config s4
  obtain ⟨s6, h6, hle6, hcf6⟩ := processCardLabels_clean hw card p config s5
  obtain ⟨s7, h7, hle7, hcf7⟩ := processCardHistory_clean hw card p config s6
  obtain ⟨s8, h8, hle8, hdue8, hstart8⟩ := processCardDates_clean hw card p config s7
  obtain ⟨s9, h9, hle9⟩ := processCardCover_clean hw card p config s8
  have le89 : fsLe s8.fs s9.fs := hle9
  have le79 : fsLe s7.fs s9.fs := fsLe_trans hle8 le89
  have le69 : fsLe s6.fs s9.fs := fsLe_trans hle7 le79
  have le59 : fsLe s5.fs s9.fs := fsLe_trans hle6 le69
  have le49 : fsLe s4.fs s9.fs := fsLe_trans hle5 le59
  have le39 : fsLe s3.fs s9.fs := fsLe_trans hle4 le49
  have le29 : fsLe s2.fs s9.fs := fsLe_trans hle3 le39
  have le19 : fsLe s1.fs s9.fs := fsLe_trans hle2 le29
  unfold processRegularCard
  rw [← hp]
  try dsimp only
  rw [hdc]
  try dsimp only
  rw [if_pos rfl]
  simp only [regularCardSteps, runChain_cons, runChain_nil, seqR, h1, h2, h3, h4, h5,
    h6, h7, h8, h9]
  refine ⟨s9, rfl, containsFile_mono le19 hcf1, statEx_mono le29 hst2,
    statEx_mono le39 hst3, containsFile_mono le49 hcf4, containsFile_mono le59 hcf5,
    containsFile_mono le69 hcf6, containsFile_mono le79 hcf7, ?_,
    containsFile_mono le89 hstart8, fun hne => containsFile_mono le29 (hurl2 hne)⟩
  rcases hdue8 with hA | hB
  · exact Or.inl (containsFile_mono le89 hA)
  · exact Or.inr (containsFile_mono le89 hB)

/-- Is this outcome a normal nil-error return. -/
def isOk : StepRes → Bool
  | .ok _ => true
  | _ => false

/-- A concrete fault-free world. -/
def cleanWorld0 : World :=
  ⟨str "20060102-150405", fun _ => false, fun _ => false, fun _ => false, fun _ => [],
    fun _ => some ⟨str "l1", str "L"⟩, fun _ => some false, fun _ => none,
    fun _ => some ⟨str "cl", str "Tasks", []⟩, fun _ => some [], fun _ => some [],
    fun _ => some [], fun _ => some [], fun _ => some [], fun _ => none,
    fun _ => some [], fun _ => some [], fun _ => some [], fun _ => some [],
    fun _ => some [], fun _ => some []⟩

theorem cleanWorld0_clean : CleanWorld cleanWorld0 :=
  ⟨fun _ => rfl, fun _ => rfl, fun _ => rfl, fun _ => rfl, fun _ => rfl, fun _ => rfl,
    fun _ => rfl, fun _ => rfl, fun _ => rfl, fun _ => rfl⟩

/-- A regular card whose attachment collection is empty (and every other
collection too). -/
def c1card : Card :=
  ⟨str "id1", str "c", [], false, str "l1", none, false, none, none, some [],
    some [], some [], some [], []⟩

/-- C1 counterexample: the claim as stated is false.  For a card with an
empty attachment collection the job completes successfully, yet
attachments/URL-Attachments.md is missing — the code only creates the
empty attachments directory in that branch and writes URL-Attachments.md
solely when at least one attachment exists. -/
theorem c1_counterexample :
    isOk (processRegularCard cleanWorld0 c1card config0 (str "b") (str "l") emptySt) = true ∧
    containsFile
      (stOf (processRegularCard cleanWorld0 c1card config0 (str "b") (str "l") emptySt)).fs
      (pjoin (pjoin (cardDirPath config0 (str "b") (str "l") c1card cleanWorld0.now)
        (str "attachments")) (str "URL-Attachments.md")) = false := by
  decide

/-- C1 witness: the amended theorem applied to a concrete card in the
concrete fault-free world. -/
theorem c1_witness :
    CleanWorld cleanWorld0 ∧
    (∃ st2, processRegularCard cleanWorld0 c1card config0 (str "b") (str "l") emptySt =
        .ok st2 ∧
      containsFile st2.fs (pjoin (cardDirPath config0 (str "b") (str "l") c1card cleanWorld0.now)
        (str "CardDescription.md")) = true ∧
      statEx st2.fs (pjoin (cardDirPath config0 (str "b") (str "l") c1card cleanWorld0.now)
        (str "attachments")) = true ∧
      statEx st2.fs (pjoin (cardDirPath config0 (str "b") (str "l") c1card cleanWorld0.now)
        (str "checklists")) = true ∧
      containsFile st2.fs (pjoin (cardDirPath config0 (str "b") (str "l") c1card cleanWorld0.now)
        (str "CardComments.md")) = true ∧
      containsFile st2.fs (pjoin (cardDirPath config0 (str "b") (str "l") c1card cleanWorld0.now)
        (str "CardUsers.md")) = true ∧
      containsFile st2.fs (pjoin (cardDirPath config0 (str "b") (str "l") c1card cleanWorld0.now)
        (str "CardLabels.md")) = true ∧
      containsFile st2.fs (pjoin (cardDirPath config0 (str "b") (str "l") c1card cleanWorld0.now)
        (str "CardHistory.md")) = true ∧
      (containsFile st2.fs (pjoin (cardDirPath config0 (str "b") (str "l") c1card cleanWorld0.now)
        (str "CardDueDate.md")) = true ∨
       containsFile st2.fs (pjoin (cardDirPath config0 (str "b") (str "l") c1card cleanWorld0.now)
        (str "CardDueDate (Completed).md")) = true) ∧
      containsFile st2.fs (pjoin (cardDirPath config0 (str "b") (str "l") c1card cleanWorld0.now)
        (str "CardStartDate.md")) = true ∧
      (effAttachments cleanWorld0 c1card ≠ [] →
        containsFile st2.fs (pjoin (pjoin (cardDirPath config0 (str "b") (str "l") c1card
          cleanWorld0.now) (str "attachments")) (str "URL-Attachments.md")) = true)) :=
  ⟨cleanWorld0_clean,
    c1_regular_card_expected_files cleanWorld0 c1card config0 (str "b") (str "l") emptySt
      cleanWorld0_clean⟩

theorem pjoin_length (a b : Str) : (pjoin a b).length = a.length + b.length + 1 := by
  simp [pjoin]
  omega

theorem ne_pjoin_self (a b : Str) : a ≠ pjoin a b := by
  intro h
  have := congrArg List.length h
  rw [pjoin_length] at this
  omega

theorem dirCreate_fs_cases (w : World) (config : Config) (st : St) (p : Str) :
    (dirCreate w config st p).1.fs = st.fs ∨
    (dirCreate w config st p).1.fs = st.fs ++ [Entry.dir p] := by
  unfold dirCreate
  by_cases hs : statEx st.fs p
  · rw [if_pos hs]; exact Or.inl rfl
  · rw [if_neg hs]
    by_cases hm : w.mkdirFails p
    · rw [if_pos hm]; exact Or.inl rfl
    · rw [if_neg hm]; exact Or.inr rfl

theorem statEx_append_dir_false {fs : List Entry} {p : Str} (q : Str) (hne : q ≠ p)
    (h : statEx fs p = false) : statEx (fs ++ [Entry.dir q]) p = false := by
  rw [statEx_append, h]
  simp only [Bool.false_or, statEx, List.any_cons, List.any_nil, Bool.or_false, entryPath]
  exact beq_eq_false_iff_ne.mpr hne

/-- C7.  For a card whose checklist IDs resolve to two checklists both
named Tasks, processCardChecklists succeeds and writes two distinct files
Tasks.md and Tasks 1.md in the checklists directory of the card, each
holding its own checklist body: the second write appends the per-card
counter instead of overwriting the first file. -/
theorem c7_checklist_name_collision (w : World) (card : Card) (cardPath : Str)
    (config : Config) (st : St) (id1 id2 : Str) (cl1 cl2 : Checklist)
    (hids : card.IDCheckLists = [id1, id2])
    (hne1 : id1 ≠ []) (hne2 : id2 ≠ [])
    (hg1 : w.getChecklist id1 = some cl1) (hg2 : w.getChecklist id2 = some cl2)
    (hn1 : cl1.Name = str "Tasks") (hn2 : cl2.Name = str "Tasks")
    (hwok : ∀ q, w.writeFails q = false) (hmok : ∀ q, w.mkdirFails q = false)
    (hstat1 : statEx st.fs
      (pjoin (pjoin cardPath (str "checklists")) (str "Tasks.md")) = false) :
    ∃ st2, processCardChecklists w card cardPath config st = .ok st2 ∧
      Entry.file (pjoin (pjoin cardPath (str "checklists")) (str "Tasks.md"))
        (checklistContent cl1) ∈ st2.fs ∧
      Entry.file (pjoin (pjoin cardPath (str "checklists")) (str "Tasks 1.md"))
        (checklistContent cl2) ∈ st2.fs := by
  have hsan : SanitizePathName w.now (str "Tasks") = str "Tasks" := rfl
  have hloop : ∀ (st0 : St), statEx st0.fs
      (pjoin (pjoin cardPath (str "checklists")) (str "Tasks.md")) = false →
      ∃ st2, checklistLoop w cardPath config [id1, id2] st0 0 = .ok st2 ∧
        Entry.file (pjoin (pjoin cardPath (str "checklists")) (str "Tasks.md"))
          (checklistContent cl1) ∈ st2.fs ∧
        Entry.file (pjoin (pjoin cardPath (str "checklists")) (str "Tasks 1.md"))
          (checklistContent cl2) ∈ st2.fs := by
    intro st0 hstat
    simp only [checklistLoop, if_neg hne1, if_neg hne2, hg1, hg2, hn1, hn2, hsan]
    split
    · next h =>
        exfalso
        have hcoerce : statEx st0.fs
            (pjoin (pjoin cardPath (str "checklists")) (str "Tasks.md")) = true := h
        rw [hstat] at hcoerce
        exact Bool.false_ne_true hcoerce
    · next h =>
        rw [wfile_clean hwok]
        try dsimp only
        rw [if_pos rfl]
        split
        · next h2 =>
            rw [wfile_clean hwok]
            try dsimp only
            rw [if_pos rfl]
            refine ⟨_, rfl, ?_, ?_⟩
            · show Entry.file (pjoin (pjoin cardPath (str "checklists")) (str "Tasks.md"))
                (checklistContent cl1) ∈
                (st0.fs ++ [Entry.file (pjoin (pjoin cardPath (str "checklists"))
                  (str "Tasks.md")) (checklistContent cl1)]) ++
                [Entry.file (pjoin (pjoin cardPath (str "checklists"))
                  (str "Tasks 1.md")) (checklistContent cl2)]
              simp
            · show Entry.file (pjoin (pjoin cardPath (str "checklists")) (str "Tasks 1.md"))
                (checklistContent cl2) ∈
                (st0.fs ++ [Entry.file (pjoin (pjoin cardPath (str "checklists"))
                  (str "Tasks.md")) (checklistContent cl1)]) ++
                [Entry.file (pjoin (pjoin cardPath (str "checklists"))
                  (str "Tasks 1.md")) (checklistContent cl2)]
              simp
        · next h2 =>
            exfalso
            apply h2
            show statEx (st0.fs ++ [Entry.file (pjoin (pjoin cardPath (str "checklists"))
              (str "Tasks.md")) (checklistContent cl1)])
              (pjoin (pjoin cardPath (str "checklists")) (str "Tasks.md")) = true
            rw [statEx_append]
            simp [statEx, entryPath]
  unfold processCardChecklists
  rw [hids]
  try dsimp only
  rcases hdc : dirCreate w config (loggerM (str "Found " ++ natToStr (List.length [id1, id2]) ++
      str " checklists for card " ++ card.Name) (str "info") true true config st)
      (pjoin cardPath (str "checklists")) with ⟨s1, b1⟩
  have hdp := dirCreate_clean hmok config (loggerM (str "Found " ++
    natToStr (List.length [id1, id2]) ++ str " checklists for card " ++ card.Name)
    (str "info") true true config st) (pjoin cardPath (str "checklists"))
  rw [hdc] at hdp
  obtain ⟨hb1, _, _, _⟩ := hdp
  dsimp only at hb1
  subst hb1
  simp only [Bool.not_true, Bool.false_eq_true, if_false]
  have hcases := dirCreate_fs_cases w config (loggerM (str "Found " ++
    natToStr (List.length [id1, id2]) ++ str " checklists for card " ++ card.Name)
    (str "info") true true config st) (pjoin cardPath (str "checklists"))
  rw [hdc] at hcases
  dsimp only at hcases
  have hstat0 : statEx s1.fs
      (pjoin (pjoin cardPath (str "checklists")) (str "Tasks.md")) = false := by
    rcases hcases with hA | hB
    · rw [hA]; exact hstat1
    · rw [hB]
      exact statEx_append_dir_false _ (ne_pjoin_self _ _) hstat1
  exact hloop s1 hstat0

/-- A card with two checklist IDs that both resolve to a checklist named
Tasks under cleanWorld0. -/
def c7card : Card :=
  ⟨str "id7", str "c", [], false, str "l1", none, false, none, none, some [],
    some [], some [], some [], [str "k1", str "k2"]⟩

/-- C7 witness: the theorem applied to the concrete two-Tasks card. -/
theorem c7_witness :
    (c7card.IDCheckLists = [str "k1", str "k2"] ∧
      cleanWorld0.getChecklist (str "k1") = some ⟨str "cl", str "Tasks", []⟩ ∧
      cleanWorld0.getChecklist (str "k2") = some ⟨str "cl", str "Tasks", []⟩ ∧
      statEx emptySt.fs (pjoin (pjoin (str "p") (str "checklists")) (str "Tasks.md")) = false) ∧
    (∃ st2, processCardChecklists cleanWorld0 c7card (str "p") config0 emptySt = .ok st2 ∧
      Entry.file (pjoin (pjoin (str "p") (str "checklists")) (str "Tasks.md"))
        (checklistContent ⟨str "cl", str "Tasks", []⟩) ∈ st2.fs ∧
      Entry.file (pjoin (pjoin (str "p") (str "checklists")) (str "Tasks 1.md"))
        (checklistContent ⟨str "cl", str "Tasks", []⟩) ∈ st2.fs) :=
  ⟨⟨rfl, rfl, rfl, rfl⟩,
    c7_checklist_name_collision cleanWorld0 c7card (str "p") config0 emptySt
      (str "k1") (str "k2") ⟨str "cl", str "Tasks", []⟩ ⟨str "cl", str "Tasks", []⟩
      rfl (by decide) (by decide) rfl rfl rfl rfl
      (fun _ => rfl) (fun _ => rfl) rfl⟩

theorem pjoin_assoc (a b c : Str) : pjoin (pjoin a b) c = pjoin a (b ++ '/' :: c) := by
  simp [pjoin]

theorem pjoin_right_inj {a b c : Str} (h : pjoin a b = pjoin a c) : b = c := by
  unfold pjoin at h
  have := List.append_cancel_left h
  exact (List.cons.injEq _ _ _ _ ▸ this).2

theorem containsFile_singleton_iff (p c q : Str) :
    containsFile [Entry.file p c] q = true ↔ p = q := by
  simp [containsFile, beq_iff_eq]

theorem containsFile_dir_invisible (fs : List Entry) (d q : Str) :
    containsFile (fs ++ [Entry.dir d]) q = containsFile fs q := by
  rw [containsFile_append]
  simp [containsFile]

theorem containsFile_dirCreate (w : World) (config : Config) (st : St) (p q : Str) :
    containsFile (dirCreate w config st p).1.fs q = containsFile st.fs q := by
  rcases dirCreate_fs_cases w config st p with hA | hB
  · rw [hA]
  · rw [hB, containsFile_dir_invisible]

theorem processCardDescription_shape (w : World) (card : Card) (cardPath : Str)
    (config : Config) (st : St) (q : Str)
    (h : containsFile (stOf (processCardDescription w card cardPath config st)).fs q = true) :
    containsFile st.fs q = true ∨ q = pjoin cardPath (str "CardDescription.md") := by
  unfold processCardDescription at h
  by_cases hwf : w.writeFails (pjoin cardPath (str "CardDescription.md"))
  · simp only [wfile, hwf, if_true, Bool.false_eq_true, if_false, retHPE,
      handleProcessingError, loggerM, stOf] at h
    exact Or.inl h
  · simp only [wfile, hwf, Bool.false_eq_true, if_false, if_true, loggerM, stOf] at h
    rw [containsFile_append] at h
    rcases Bool.or_eq_true_iff.mp h with h1 | h2
    · exact Or.inl h1
    · exact Or.inr ((containsFile_singleton_iff _ _ _).mp h2).symm

theorem processOneAttachment_fs_cases (w : World) (card : Card) (cardPath : Str)
    (config : Config) (acc : St × Str) (a : Attachment) :
    (processOneAttachment w card cardPath config acc a).1.fs = acc.1.fs ∨
    ∃ x u, (processOneAttachment w card cardPath config acc a).1.fs =
      acc.1.fs ++ [Entry.file (pjoin (pjoin cardPath (str "attachments")) x) u] := by
  unfold processOneAttachment downloadFileAuthHeader
  set authURL := str "https://api.trello.com/1/cards/" ++ card.ID ++ str "/attachments/" ++
    a.ID ++ str "/download/" ++ a.Name with hurl
  by_cases hu : a.IsUpload = true
  · by_cases hcov : (match card.Cover with
        | some cv => cv.IDAttachment == a.ID
        | none => false) = true
    · by_cases hd : w.downloadFails authURL = true
      · refine Or.inl ?_
        simp [hu, hcov, hd, loggerM]
      · by_cases hwf : w.writeFails (pjoin (pjoin cardPath (str "attachments"))
            (a.Name ++ str " (Card Cover)")) = true
        · refine Or.inl ?_
          rw [Bool.not_eq_true] at hd
          simp [hu, hcov, hd, hwf, loggerM]
        · refine Or.inr ⟨a.Name ++ str " (Card Cover)", authURL, ?_⟩
          rw [Bool.not_eq_true] at hd hwf
          simp [hu, hcov, hd, hwf, loggerM]
    · by_cases hd : w.downloadFails authURL = true
      · refine Or.inl ?_
        rw [Bool.not_eq_true] at hcov
        simp [hu, hcov, hd, loggerM]
      · by_cases hwf : w.writeFails (pjoin (pjoin cardPath (str "attachments")) a.Name) = true
        · refine Or.inl ?_
          rw [Bool.not_eq_true] at hcov hd
          simp [hu, hcov, hd, hwf, loggerM]
        · refine Or.inr ⟨a.Name, authURL, ?_⟩
          rw [Bool.not_eq_true] at hcov hd hwf
          simp [hu, hcov, hd, hwf, loggerM]
  · refine Or.inl ?_
    rw [Bool.not_eq_true] at hu
    simp [hu]

theorem processOneAttachment_shape (w : World) (card : Card) (cardPath : Str)
    (config : Config) (acc : St × Str) (a : Attachment) (q : Str)
    (h : containsFile (processOneAttachment w card cardPath config acc a).1.fs q = true) :
    containsFile acc.1.fs q = true ∨ ∃ s, q = pjoin cardPath (str "attachments" ++ s) := by
  rcases processOneAttachment_fs_cases w card cardPath config acc a with hA | ⟨x, u, hB⟩
  · rw [hA] at h
    exact Or.inl h
  · rw [hB, containsFile_append] at h
    rcases Bool.or_eq_true_iff.mp h with h1 | h2
    · exact Or.inl h1
    · have hq := ((containsFile_singleton_iff _ _ _).mp h2).symm
      rw [pjoin_assoc] at hq
      exact Or.inr ⟨_, hq⟩

theorem attachFold_shape (w : World) (card : Card) (cardPath : Str) (config : Config)
    (l : List Attachment) :
    ∀ (acc : St × Str) (q : Str),
      containsFile ((l.foldl (processOneAttachment w card cardPath config) acc).1).fs q = true →
      containsFile acc.1.fs q = true ∨ ∃ s, q = pjoin cardPath (str "attachments" ++ s) := by
  induction l with
  | nil => intro acc q h; exact Or.inl h
  | cons a rest ih =>
    intro acc q h
    rw [List.foldl_cons] at h
    rcases ih _ q h with h1 | h2
    · exact processOneAttachment_shape w card cardPath config acc a q h1
    · exact Or.inr h2

theorem processCardAttachments_shape (w : World) (card : Card) (cardPath : Str)
    (config : Config) (st : St) (q : Str)
    (h : containsFile (stOf (processCardAttachments w card cardPath config st)).fs q = true) :
    containsFile st.fs q = true ∨ ∃ s, q = pjoin cardPath (str "attachments" ++ s) := by
  unfold processCardAttachments at h
  rcases hao : (match card.Attachments with
      | some l => some l
      | none => w.getAttachments card.ID) with _ | l
  · rw [hao] at h
    exact Or.inl h
  · rw [hao] at h
    dsimp only at h
    by_cases hlen : l.length > 0
    · rw [if_pos hlen] at h
      split at h
      · have h' : containsFile
            (dirCreate w config st (pjoin cardPath (str "attachments"))).1.fs q = true := h
        rw [containsFile_dirCreate] at h'
        exact Or.inl h'
      · by_cases hwf : w.writeFails (pjoin (pjoin cardPath (str "attachments"))
            (str "URL-Attachments.md")) = true
        · simp only [wfile, hwf, eq_self_iff_true, if_true, Bool.false_eq_true, if_false,
            retHPE, handleProcessingError, pErrText, loggerM, stOf] at h
          rcases attachFold_shape w card cardPath config l _ q h with h1 | h2
          · have h' : containsFile
                (dirCreate w config st (pjoin cardPath (str "attachments"))).1.fs q = true := h1
            rw [containsFile_dirCreate] at h'
            exact Or.inl h'
          · exact Or.inr h2
        · simp only [wfile, hwf, Bool.false_eq_true, if_false, eq_self_iff_true, if_true,
            stOf] at h
          rw [containsFile_append] at h
          rcases Bool.or_eq_true_iff.mp h with h1 | h2
          · rcases attachFold_shape w card cardPath config l _ q h1 with ha | hb
            · have h' : containsFile
                  (dirCreate w config st (pjoin cardPath (str "attachments"))).1.fs q = true := ha
              rw [containsFile_dirCreate] at h'
              exact Or.inl h'
            · exact Or.inr hb
          · have hq := ((containsFile_singleton_iff _ _ _).mp h2).symm
            rw [pjoin_assoc] at hq
            exact Or.inr ⟨_, hq⟩
    · rw [if_neg hlen] at h
      split at h
      · have h' : containsFile (dirCreate w config
            (loggerM (str "No attachments found for card " ++ card.Name) (str "warn")
              true true config st) (pjoin cardPath (str "attachments"))).1.fs q = true := h
        rw [containsFile_dirCreate] at h'
        exact Or.inl h'
      · have h' : containsFile (dirCreate w config
            (loggerM (str "No attachments found for card " ++ card.Name) (str "warn")
              true true config st) (pjoin cardPath (str "attachments"))).1.fs q = true := h
        rw [containsFile_dirCreate] at h'
        exact Or.inl h'

theorem checklistLoop_shape (w : World) (cardPath : Str) (config : Config) :
    ∀ (ids : List Str) (st : St) (n : ℕ) (q : Str),
      containsFile (stOf (checklistLoop w cardPath config ids st n)).fs q = true →
      containsFile st.fs q = true ∨ ∃ s, q = pjoin cardPath (str "checklists" ++ s) := by
  intro ids
  induction ids with
  | nil => intro st n q h; exact Or.inl h
  | cons cid rest ih =>
    intro st n q h
    by_cases hcid : cid = []
    · simp only [checklistLoop, if_pos hcid] at h
      exact ih st n q h
    · simp only [checklistLoop, if_neg hcid] at h
      rcases hgc : w.getChecklist cid with _ | cl
      · rw [hgc] at h
        dsimp only at h
        rcases ih _ n q h with h1 | h2
        · exact Or.inl h1
        · exact Or.inr h2
      · rw [hgc] at h
        dsimp only at h
        split at h
        · by_cases hwf : w.writeFails (pjoin (pjoin cardPath (str "checklists"))
              (SanitizePathName w.now cl.Name ++ str " " ++ natToStr (n + 1) ++ str ".md")) = true
          · simp only [wfile, hwf, eq_self_iff_true, if_true, Bool.false_eq_true, if_false,
              loggerM, stOf] at h
            exact Or.inl h
          · simp only [wfile, hwf, Bool.false_eq_true, if_false, eq_self_iff_true,
              if_true] at h
            rcases ih _ (n + 1) q h with h1 | h2
            · have h' : containsFile (st.fs ++ [Entry.file (pjoin (pjoin cardPath
                  (str "checklists")) (SanitizePathName w.now cl.Name ++ str " " ++
                  natToStr (n + 1) ++ str ".md")) (checklistContent cl)]) q = true := h1
              rw [containsFile_append] at h'
              rcases Bool.or_eq_true_iff.mp h' with ha | hb
              · exact Or.inl ha
              · have hq := ((containsFile_singleton_iff _ _ _).mp hb).symm
                rw [pjoin_assoc] at hq
                exact Or.inr ⟨_, hq⟩
            · exact Or.inr h2
        · by_cases hwf : w.writeFails (pjoin (pjoin cardPath (str "checklists"))
              (SanitizePathName w.now cl.Name ++ str ".md")) = true
          · simp only [wfile, hwf, eq_self_iff_true, if_true, Bool.false_eq_true, if_false,
              loggerM, stOf] at h
            exact Or.inl h
          · simp only [wfile, hwf, Bool.false_eq_true, if_false, eq_self_iff_true,
              if_true] at h
            rcases ih _ n q h with h1 | h2
            · have h' : containsFile (st.fs ++ [Entry.file (pjoin (pjoin cardPath
                  (str "checklists")) (SanitizePathName w.now cl.Name ++ str ".md"))
                  (checklistContent cl)]) q = true := h1
              rw [containsFile_append] at h'
              rcases Bool.or_eq_true_iff.mp h' with ha | hb
              · exact Or.inl ha
              · have hq := ((containsFile_singleton_iff _ _ _).mp hb).symm
                rw [pjoin_assoc] at hq
                exact Or.inr ⟨_, hq⟩
            · exact Or.inr h2

theorem processCardChecklists_shape (w : World) (card : Card) (cardPath : Str)
    (config : Config) (st : St) (q : Str)
    (h : containsFile (stOf (processCardChecklists w card cardPath config st)).fs q = true) :
    containsFile st.fs q = true ∨ ∃ s, q = pjoin cardPath (str "checklists" ++ s) := by
  unfold processCardChecklists at h
  dsimp only at h
  split at h
  · have h' : containsFile (dirCreate w config
        (loggerM (str "Found " ++ natToStr card.IDCheckLists.length ++
          str " checklists for card " ++ card.Name) (str "info") true true config st)
        (pjoin cardPath (str "checklists"))).1.fs q = true := h
    rw [containsFile_dirCreate] at h'
    exact Or.inl h'
  · rcases checklistLoop_shape w cardPath config card.IDCheckLists _ 0 q h with h1 | h2
    · have h' : containsFile (dirCreate w config
          (loggerM (str "Found " ++ natToStr card.IDCheckLists.length ++
            str " checklists for card " ++ card.Name) (str "info") true true config st)
          (pjoin cardPath (str "checklists"))).1.fs q = true := h1
      rw [containsFile_dirCreate] at h'
      exact Or.inl h'
    · exact Or.inr h2

theorem runChain_append (l1 l2 : List (St → StepRes)) (st : St) :
    runChain (l1 ++ l2) st = seqR (runChain l1 st) (runChain l2) := by
  induction l1 generalizing st with
  | nil => rfl
  | cons f fs ih =>
    rw [List.cons_append, runChain_cons, runChain_cons]
    cases hf : f st with
    | ok s => simp [seqR, ih]
    | fail s e => simp [seqR]
    | exit s => simp [seqR]

/-- The files the later sub-resource steps of processRegularCard create
directly in the card directory: comments, users, labels, history, dates,
cover. -/
def lateCardFiles : List Str :=
  [str "CardComments.md", str "CardUsers.md", str "CardLabels.md", str "CardHistory.md",
   str "CardDueDate.md", str "CardDueDate (Completed).md", str "CardStartDate.md",
   str "CardCoverColor.md"]

theorem late_ne_desc {fname : Str} (hm : fname ∈ lateCardFiles) :
    fname ≠ str "CardDescription.md" := by
  fin_cases hm <;> decide

theorem late_not_attachments {fname : Str} (hm : fname ∈ lateCardFiles) (s : Str)
    (h : fname = str "attachments" ++ s) : False := by
  have h11 := congrArg (List.take (str "attachments").length) h
  rw [List.take_left] at h11
  fin_cases hm <;> exact absurd h11 (by decide)

theorem late_not_checklists {fname : Str} (hm : fname ∈ lateCardFiles) (s : Str)
    (h : fname = str "checklists" ++ s) : False := by
  have h10 := congrArg (List.take (str "checklists").length) h
  rw [List.take_left] at h10
  fin_cases hm <;> exact absurd h10 (by decide)

/-- C9.  If an early sub-resource step of a regular card (description,
attachments or checklists, step index k) returns an error while the steps
before it succeeded, processRegularCard returns that error immediately
and none of the later expected files (comments, users, labels, history,
dates, cover) exist for that card afterwards, provided none existed
before. -/
theorem c9_early_return_skips_later_steps (w : World) (card : Card) (config : Config)
    (boardPath cleanListPath : Str) (st st0 st1 st2 : St) (e : GoErr) (k : ℕ)
    (f : St → StepRes)
    (hk : k ≤ 2)
    (hdir : dirCreate w config st
      (cardDirPath config boardPath cleanListPath card w.now) = (st0, true))
    (hpre : runChain ((regularCardSteps w card config
      (cardDirPath config boardPath cleanListPath card w.now)).take k) st0 = .ok st1)
    (hstep : (regularCardSteps w card config
      (cardDirPath config boardPath cleanListPath card w.now)).get? k = some f)
    (hfail : f st1 = .fail st2 e)
    (habs : ∀ fname ∈ lateCardFiles, containsFile st.fs
      (pjoin (cardDirPath config boardPath cleanListPath card w.now) fname) = false) :
    processRegularCard w card config boardPath cleanListPath st = .fail st2 e ∧
    ∀ fname ∈ lateCardFiles, containsFile st2.fs
      (pjoin (cardDirPath config boardPath cleanListPath card w.now) fname) = false := by
  set p := cardDirPath config boardPath cleanListPath card w.now with hp
  have habs0 : ∀ fname ∈ lateCardFiles, containsFile st0.fs (pjoin p fname) = false := by
    intro fname hm
    have hcd := containsFile_dirCreate w config st p (pjoin p fname)
    rw [hdir] at hcd
    dsimp only at hcd
    rw [hcd]
    exact habs fname hm
  unfold processRegularCard
  rw [← hp]
  try dsimp only
  rw [hdir]
  try dsimp only
  rw [if_pos rfl]
  interval_cases k
  · have hpre2 : StepRes.ok st0 = .ok st1 := hpre
    injection hpre2 with hst
    subst hst
    have hstep2 : some (processCardDescription w card p config) = some f := hstep
    injection hstep2 with hf
    subst hf
    constructor
    · simp only [regularCardSteps, runChain_cons, hfail, seqR]
    · intro fname hm
      cases hq : containsFile st2.fs (pjoin p fname) with
      | false => rfl
      | true =>
        exfalso
        have hsh := processCardDescription_shape w card p config st0 (pjoin p fname)
          (by rw [hfail]; exact hq)
        rcases hsh with h1 | h2
        · rw [habs0 fname hm] at h1
          exact Bool.false_ne_true h1
        · exact late_ne_desc hm (pjoin_right_inj h2)
  · have hpre2 : runChain [processCardDescription w card p config] st0 = .ok st1 := hpre
    rw [runChain_cons] at hpre2
    rcases hd1 : processCardDescription w card p config st0 with s | ⟨s, e1⟩ | s
    · rw [hd1] at hpre2
      have hs : s = st1 := by
        have hok : StepRes.ok s = .ok st1 := hpre2
        injection hok
      subst hs
      have hstep2 : some (processCardAttachments w card p config) = some f := hstep
      injection hstep2 with hf
      subst hf
      constructor
      · simp only [regularCardSteps, runChain_cons, hd1, seqR, hfail]
      · intro fname hm
        cases hq : containsFile st2.fs (pjoin p fname) with
        | false => rfl
        | true =>
          exfalso
          have hsh := processCardAttachments_shape w card p config s (pjoin p fname)
            (by rw [hfail]; exact hq)
          rcases hsh with h1 | ⟨s2, hs2⟩
          · have hsh0 := processCardDescription_shape w card p config st0 (pjoin p fname)
              (by rw [hd1]; exact h1)
            rcases hsh0 with ha | hb
            · rw [habs0 fname hm] at ha
              exact Bool.false_ne_true ha
            · exact late_ne_desc hm (pjoin_right_inj hb)
          · exact late_not_attachments hm s2 (pjoin_right_inj hs2)
    · rw [hd1] at hpre2
      exact absurd hpre2 (by simp [seqR])
    · rw [hd1] at hpre2
      exact absurd hpre2 (by simp [seqR])
  · have hpre2 : runChain [processCardDescription w card p config,
        processCardAttachments w card p config] st0 = .ok st1 := hpre
    rw [runChain_cons] at hpre2
    rcases hd1 : processCardDescription w card p config st0 with s | ⟨s, e1⟩ | s
    · rw [hd1] at hpre2
      have hpre3 : runChain [processCardAttachments w card p config] s = .ok st1 := hpre2
      rw [runChain_cons] at hpre3
      rcases hd2 : processCardAttachments w card p config s with s2 | ⟨s2, e2⟩ | s2
      · rw [hd2] at hpre3
        have hs : s2 = st1 := by
          have hok : StepRes.ok s2 = .ok st1 := hpre3
          injection hok
        subst hs
        have hstep2 : some (processCardChecklists w card p config) = some f := hstep
        injection hstep2 with hf
        subst hf
        constructor
        · simp only [regularCardSteps, runChain_cons, hd1, seqR, hd2, hfail]
        · intro fname hm
          cases hq : containsFile st2.fs (pjoin p fname) with
          | false => rfl
          | true =>
            exfalso
            have hsh := processCardChecklists_shape w card p config s2 (pjoin p fname)
              (by rw [hfail]; exact hq)
            rcases hsh with h1 | ⟨s3, hs3⟩
            · have hsh1 := processCardAttachments_shape w card p config s (pjoin p fname)
                (by rw [hd2]; exact h1)
              rcases hsh1 with h2 | ⟨sx, hsx⟩
              · have hsh0 := processCardDescription_shape w card p config st0 (pjoin p fname)
                  (by rw [hd1]; exact h2)
                rcases hsh0 with ha | hb
                · rw [habs0 fname hm] at ha
                  exact Bool.false_ne_true ha
                · exact late_ne_desc hm (pjoin_right_inj hb)
              · exact late_not_attachments hm sx (pjoin_right_inj hsx)
            · exact late_not_checklists hm s3 (pjoin_right_inj hs3)
      · rw [hd2] at hpre3
        exact absurd hpre3 (by simp [seqR])
      · rw [hd2] at hpre3
        exact absurd hpre3 (by simp [seqR])
    · rw [hd1] at hpre2
      exact absurd hpre2 (by simp [seqR])
    · rw [hd1] at hpre2
      exact absurd hpre2 (by simp [seqR])

/-- A regular card carrying one URL attachment. -/
def c9card : Card :=
  ⟨str "id9", str "c", [], false, str "l1", none, false, none, none,
    some [⟨str "a1", str "n1", str "u1", false⟩], some [], some [], some [], []⟩

/-- The URL-Attachments.md path of c9card under config0. -/
def c9urlPath : Str :=
  pjoin (pjoin (cardDirPath config0 (str "b") (str "l") c9card (str "20060102-150405"))
    (str "attachments")) (str "URL-Attachments.md")

/-- A world that fails exactly the URL-Attachments.md write of c9card. -/
def c9world : World :=
  { cleanWorld0 with writeFails := fun q => q == c9urlPath }

/-- States reached by the failing run of c9card. -/
def c9st0 : St :=
  (dirCreate c9world config0 emptySt
    (cardDirPath config0 (str "b") (str "l") c9card c9world.now)).1

def c9st1 : St :=
  stOf (runChain ((regularCardSteps c9world c9card config0
    (cardDirPath config0 (str "b") (str "l") c9card c9world.now)).take 1) c9st0)

def c9st2 : St :=
  stOf (processCardAttachments c9world c9card
    (cardDirPath config0 (str "b") (str "l") c9card c9world.now) config0 c9st1)

def c9err : GoErr :=
  errOf (processCardAttachments c9world c9card
    (cardDirPath config0 (str "b") (str "l") c9card c9world.now) config0 c9st1)

/-- C9 witness: the theorem applied to a concrete run whose attachments
step fails on the URL-Attachments.md write. -/
theorem c9_witness :
    ((1 : ℕ) ≤ 2 ∧
      dirCreate c9world config0 emptySt
        (cardDirPath config0 (str "b") (str "l") c9card c9world.now) = (c9st0, true) ∧
      runChain ((regularCardSteps c9world c9card config0
        (cardDirPath config0 (str "b") (str "l") c9card c9world.now)).take 1) c9st0 =
        .ok c9st1 ∧
      (regularCardSteps c9world c9card config0
        (cardDirPath config0 (str "b") (str "l") c9card c9world.now)).get? 1 =
        some (processCardAttachments c9world c9card
          (cardDirPath config0 (str "b") (str "l") c9card c9world.now) config0) ∧
      processCardAttachments c9world c9card
        (cardDirPath config0 (str "b") (str "l") c9card c9world.now) config0 c9st1 =
        .fail c9st2 c9err ∧
      (∀ fname ∈ lateCardFiles, containsFile emptySt.fs
        (pjoin (cardDirPath config0 (str "b") (str "l") c9card c9world.now) fname) = false)) ∧
    (processRegularCard c9world c9card config0 (str "b") (str "l") emptySt =
        .fail c9st2 c9err ∧
      ∀ fname ∈ lateCardFiles, containsFile c9st2.fs
        (pjoin (cardDirPath config0 (str "b") (str "l") c9card c9world.now) fname) = false) :=
  ⟨⟨by decide, by decide, by decide, rfl, by decide, by decide⟩,
    c9_early_return_skips_later_steps c9world c9card config0 (str "b") (str "l")
      emptySt c9st0 c9st1 c9st2 c9err 1
      (processCardAttachments c9world c9card
        (cardDirPath config0 (str "b") (str "l") c9card c9world.now) config0)
      (by decide) (by decide) (by decide) rfl (by decide) (by decide)⟩

theorem dumpABoard_root_exit (w : World) (config : Config) (board : Board) (st : St)
    (hstat : statEx st.fs config.ARGS.StoragePath = false)
    (hm : w.mkdirFails config.ARGS.StoragePath = true) :
    ∃ st2, dumpABoard w config board st = .exit st2 := by
  unfold dumpABoard
  have hb : (dirCreate w config st config.ARGS.StoragePath).2 = false := by
    simp [dirCreate, hstat, hm]
  rcases hd : dirCreate w config st config.ARGS.StoragePath with ⟨s1, b1⟩
  rw [hd] at hb
  dsimp only at hb
  subst hb
  simp only [Bool.not_false, if_true]
  exact ⟨s1, rfl⟩

theorem dumpABoard_zero_cards (w : World) (config : Config) (board : Board) (st : St)
    (hw : ∀ q, w.writeFails q = false) (hm : ∀ q, w.mkdirFails q = false)
    (hbg : board.BackgroundImage = [])
    (hlab : ∃ ls, w.getBoardLabels board.ID = some ls)
    (hmem : ∃ ms, w.getBoardMembers board.ID = some ms)
    (hlid : config.ARGS.LabelID = [])
    (harch : config.ARGS.Archived = false)
    (hzero : w.getCardsOpen board.ID = some []) :
    ∃ st2, dumpABoard w config board st = .done st2 ∧ st2.flag = true := by
  obtain ⟨ls, hls⟩ := hlab
  obtain ⟨ms, hms⟩ := hmem
  unfold dumpABoard
  rcases hd1 : dirCreate w config st config.ARGS.StoragePath with ⟨s1, b1⟩
  have hp1 := dirCreate_clean hm config st config.ARGS.StoragePath
  rw [hd1] at hp1
  obtain ⟨hb1, _, _, _⟩ := hp1
  dsimp only at hb1
  subst hb1
  try dsimp only
  simp only [Bool.not_true, Bool.false_eq_true, if_false]
  rcases hd2 : dirCreate w config s1
      (config.ARGS.StoragePath ++ '/' :: SanitizePathName w.now board.Name) with ⟨s2, b2⟩
  have hp2 := dirCreate_clean hm config s1
    (config.ARGS.StoragePath ++ '/' :: SanitizePathName w.now board.Name)
  rw [hd2] at hp2
  obtain ⟨hb2, _, _, _⟩ := hp2
  dsimp only at hb2
  subst hb2
  try dsimp only
  simp only [Bool.not_true, Bool.false_eq_true, if_false]
  rw [hbg]
  rw [if_neg (by simp : ¬ (([] : Str) ≠ []))]
  rw [hls]
  try dsimp only
  rw [wfile_clean hw]
  try dsimp only
  simp only [eq_self_iff_true, if_true, Bool.not_true, Bool.false_eq_true, if_false]
  rw [hms]
  try dsimp only
  rw [wfile_clean hw]
  try dsimp only
  simp only [eq_self_iff_true, if_true, Bool.not_true, Bool.false_eq_true, if_false]
  unfold fetchBoardCards
  rw [hlid]
  rw [if_neg (by simp : ¬ (([] : Str) ≠ []))]
  rw [harch]
  simp only [Bool.false_eq_true, if_false]
  rw [hzero]
  try dsimp only
  simp only [List.length_nil, eq_self_iff_true, if_true]
  refine ⟨_, rfl, rfl⟩

/-- C4 (amended).  Board-level errors in the dump path: a board that is
not found is skipped with the run continuing to the next board ID, and a
board whose card fetch matches zero cards ends that board immediately
with the run-status flag set and the run continuing to the next board ID;
but a failure to create the storage root directory reaches os.Exit(1) and
terminates the entire run, so the remaining board IDs are never
processed. -/
theorem c4_board_level_errors (wA wB wC : World) (config : Config) (st : St)
    (bA bB bC : Str) (rest : List Str) (board boardC : Board)
    (hmode1 : config.ARGS.ListLabelIDs = false)
    (hmode2 : config.ARGS.ListTotalCards = false)
    (hA : wA.getBoard bA = none)
    (hBfound : wB.getBoard bB = some board)
    (hBw : ∀ q, wB.writeFails q = false) (hBm : ∀ q, wB.mkdirFails q = false)
    (hBbg : board.BackgroundImage = [])
    (hBlab : ∃ ls, wB.getBoardLabels board.ID = some ls)
    (hBmem : ∃ ms, wB.getBoardMembers board.ID = some ms)
    (hBlid : config.ARGS.LabelID = [])
    (hBarch : config.ARGS.Archived = false)
    (hBzero : wB.getCardsOpen board.ID = some [])
    (hCfound : wC.getBoard bC = some boardC)
    (hCstat : statEx st.fs config.ARGS.StoragePath = false)
    (hCm : wC.mkdirFails config.ARGS.StoragePath = true) :
    runBoardLoop wA config (bA :: rest) st = runBoardLoop wA config rest
      (loggerM (str "Error: Unable to get board data for board ID" ++ bA) (str "err")
        true false config st) ∧
    (∃ st2, runBoardLoop wB config (bB :: rest) st = runBoardLoop wB config rest st2 ∧
      st2.flag = true) ∧
    (∃ st2, runBoardLoop wC config (bC :: rest) st = .exit st2) := by
  refine ⟨?_, ?_, ?_⟩
  · simp only [runBoardLoop, hA]
  · obtain ⟨st2, hdump, hflag⟩ := dumpABoard_zero_cards wB config board
      (loggerM (str "Processing Board Name: " ++ board.Name) (str "info") true false config st)
      hBw hBm hBbg hBlab hBmem hBlid hBarch hBzero
    refine ⟨loggerM (str "Processing Complete") (str "info") true false config st2, ?_, hflag⟩
    simp only [runBoardLoop, hBfound, hmode1, hmode2, Bool.false_eq_true, if_false, hdump]
  · obtain ⟨st2, hdump⟩ := dumpABoard_root_exit wC config boardC
      (loggerM (str "Processing Board Name: " ++ boardC.Name) (str "info") true false config st)
      hCstat hCm
    refine ⟨st2, ?_⟩
    simp only [runBoardLoop, hCfound, hmode1, hmode2, Bool.false_eq_true, if_false, hdump]

/-- The world of the C4 counterexample: every board ID resolves, but the
storage root directory cannot be created. -/
def c4world : World :=
  { cleanWorld0 with
    getBoard := fun id => some ⟨id, str "B", []⟩,
    mkdirFails := fun q => q == str "s" }

/-- Is this run outcome a process exit. -/
def isExitRun : RunRes → Bool
  | .exit _ => true
  | .done _ => false

/-- The board tracker of a run outcome. -/
def trackerOf : RunRes → List Str
  | .done st => st.tracker
  | .exit st => st.tracker

/-- C4 counterexample: the claim as stated is false.  With two requested
board IDs and a storage root that cannot be created, the run reaches
os.Exit(1) during the first board and never continues to the second: the
whole run exits with no board ever recorded as processed. -/
theorem c4_counterexample :
    isExitRun (runBoardLoop c4world config0 [str "b1", str "b2"] emptySt) = true ∧
    trackerOf (runBoardLoop c4world config0 [str "b1", str "b2"] emptySt) = [] := by
  decide

/-- The world of the C4 witness: board bx is unknown, board by resolves
to a board with no cards, everything else clean. -/
def c4wB : World :=
  { cleanWorld0 with
    getBoard := fun id => if id == str "bx" then none else some ⟨id, str "B", []⟩ }

/-- C4 witness: the amended theorem applied at concrete worlds — an
unknown board, a zero-card board, and a root-creation failure. -/
theorem c4_witness :
    (c4wB.getBoard (str "bx") = none ∧
      c4wB.getBoard (str "by") = some ⟨str "by", str "B", []⟩ ∧
      c4world.getBoard (str "bz") = some ⟨str "bz", str "B", []⟩ ∧
      statEx emptySt.fs config0.ARGS.StoragePath = false ∧
      c4world.mkdirFails config0.ARGS.StoragePath = true) ∧
    (runBoardLoop c4wB config0 (str "bx" :: [str "byy"]) emptySt =
      runBoardLoop c4wB config0 [str "byy"]
        (loggerM (str "Error: Unable to get board data for board ID" ++ str "bx")
          (str "err") true false config0 emptySt) ∧
    (∃ st2, runBoardLoop c4wB config0 (str "by" :: [str "byy"]) emptySt =
      runBoardLoop c4wB config0 [str "byy"] st2 ∧ st2.flag = true) ∧
    (∃ st2, runBoardLoop c4world config0 (str "bz" :: [str "byy"]) emptySt = .exit st2)) :=
  ⟨⟨rfl, rfl, rfl, rfl, rfl⟩,
    c4_board_level_errors c4wB c4wB c4world config0 emptySt (str "bx") (str "by") (str "bz")
      [str "byy"] ⟨str "by", str "B", []⟩ ⟨str "bz", str "B", []⟩
      rfl rfl rfl rfl (fun _ => rfl) (fun _ => rfl) rfl ⟨[], rfl⟩ ⟨[], rfl⟩ rfl rfl rfl
      rfl rfl rfl⟩
